import Mathlib

/-!
Shallow embedding of the core matching engine of the trading system
(trading-engine: balance_service.cpp, order_service.cpp, orderbook.cpp,
matching_engine.cpp, trading_engine.cpp).

Conventions of the embedding:
* C++ `std::map` containers become association lists with first-match lookup
  (`lookupA`) and update-or-append (`setA`).
* `shared_ptr<Order>` aliasing is modelled by keeping every order in a single
  registry (`EngineState.orders`, the `OrderService::orders_` map) and letting
  price levels and books store order ids; every dereference of an order pointer
  is a registry lookup.
* Monetary amounts are `Int` (the C++ `int64_t`); quantities are `Nat` (the
  C++ `uint64_t`).  The scenarios in the claims stay far from the 64-bit range,
  so wrap-around is immaterial and not modelled.
* The matching loops of `matchLimitOrder`/`matchMarketOrder` take a fuel
  argument: the C++ `while` loop terminates because every iteration either
  fills the incoming order further or removes a resting order, and every
  theorem below is either quantified over all fuel values or instantiated with
  fuel that is ample for its concrete scenario.
* The trade/order-update callbacks: `notifyTrade` appends to
  `EngineState.emittedTrades`; `notifyOrderUpdate` and `publishMarketData`
  carry no engine state (the latter is an empty function in the source) and
  are not modelled.
-/

namespace TE

/-- `Side` from types.hpp. -/
inductive Side : Type where
  | BUY : Side
  | SELL : Side
deriving DecidableEq

/-- `OrderType` from types.hpp. -/
inductive OrderType : Type where
  | LIMIT : OrderType
  | MARKET : OrderType
deriving DecidableEq

/-- `TimeInForce` from types.hpp. -/
inductive TimeInForce : Type where
  | GFD : TimeInForce
  | IOC : TimeInForce
  | FOK : TimeInForce
deriving DecidableEq

/-- `OrderStatus` from types.hpp. -/
inductive OrderStatus : Type where
  | PENDING : OrderStatus
  | PARTIALLY_FILLED : OrderStatus
  | FILLED : OrderStatus
  | CANCELLED : OrderStatus
  | REJECTED : OrderStatus
deriving DecidableEq

/-- `ErrorCode` from types.hpp. -/
inductive ErrorCode : Type where
  | SUCCESS : ErrorCode
  | INVALID_SYMBOL : ErrorCode
  | INVALID_QUANTITY : ErrorCode
  | INVALID_PRICE : ErrorCode
  | INSUFFICIENT_BALANCE : ErrorCode
  | ORDER_NOT_FOUND : ErrorCode
  | DUPLICATE_ORDER : ErrorCode
  | SYSTEM_ERROR : ErrorCode
deriving DecidableEq

abbrev OrderId : Type := Nat
abbrev UserId : Type := Nat
abbrev Price : Type := Int
abbrev Quantity : Type := Nat

/-- `Order` from types.hpp (the timestamp, used nowhere by the claims, is
omitted). -/
structure Order : Type where
  orderId : OrderId
  userId : UserId
  symbol : String
  side : Side
  type : OrderType
  timeInForce : TimeInForce
  price : Price
  quantity : Quantity
  filledQuantity : Quantity
  status : OrderStatus
deriving DecidableEq

/-- `Trade` from types.hpp (timestamp omitted). -/
structure Trade : Type where
  tradeId : Nat
  buyOrderId : OrderId
  sellOrderId : OrderId
  buyUserId : UserId
  sellUserId : UserId
  symbol : String
  price : Price
  quantity : Quantity
deriving DecidableEq

/-- `UserBalance` from types.hpp. -/
structure UserBalance : Type where
  userId : UserId
  availableBalance : Int
  lockedBalance : Int
deriving DecidableEq

/-- `PriceLevel` from orderbook.hpp: FIFO order list plus the incrementally
maintained aggregate `totalQuantity_`.  The auxiliary `orderMap_` (id to list
iterator) is represented by id membership in `orders`. -/
structure PriceLevel : Type where
  price : Price
  totalQuantity : Quantity
  orders : List OrderId
deriving DecidableEq

/-- `OrderBook` from orderbook.hpp: bid ladder (descending price), ask ladder
(ascending price), the `orderMap_` key set, and last-trade data. -/
structure OrderBook : Type where
  symbol : String
  bidLevels : List (Price × PriceLevel)
  askLevels : List (Price × PriceLevel)
  orderIds : List OrderId
  lastTradePrice : Price
  totalVolume : Nat
deriving DecidableEq

/-- Whole-engine state: `OrderService::orders_`/`userOrders_`,
`BalanceService::balances_`, `MatchingEngine::orderBooks_`, the two id
counters, and the log of trades handed to the trade callback. -/
structure EngineState : Type where
  orders : List (OrderId × Order)
  userOrders : List (UserId × List OrderId)
  balances : List (UserId × UserBalance)
  books : List (String × OrderBook)
  nextOrderId : Nat
  nextTradeId : Nat
  emittedTrades : List Trade
deriving DecidableEq

/-- First-match association-list lookup (`std::map::find`). -/
def lookupA {κ α : Type} [DecidableEq κ] : List (κ × α) → κ → Option α
  | [], _ => none
  | (k, v) :: rest, key => if key = k then some v else lookupA rest key

/-- Association-list update-or-append (`std::map::operator[] =`). -/
def setA {κ α : Type} [DecidableEq κ] : List (κ × α) → κ → α → List (κ × α)
  | [], key, v => [(key, v)]
  | (k, w) :: rest, key, v =>
    if key = k then (k, v) :: rest else (k, w) :: setA rest key v

/-- Remove the first occurrence of an id from a list (`std::map::erase` /
`std::list::erase` on the unique entry of that id). -/
def removeId : List Nat → Nat → List Nat
  | [], _ => []
  | x :: rest, y => if x = y then rest else x :: removeId rest y

/-! ## Balance ledger (balance_service.cpp) -/

/-- `BalanceService::getOrCreateBalance`: a missing account reads as a fresh
zero balance. -/
def getOrCreateBalance (bs : List (UserId × UserBalance)) (u : UserId) : UserBalance :=
  (lookupA bs u).getD { userId := u, availableBalance := 0, lockedBalance := 0 }

/-- `BalanceService::initializeBalance`. -/
def initializeBalance (st : EngineState) (u : UserId) (initialBalance : Int) : EngineState :=
  let b : UserBalance := { userId := u, availableBalance := initialBalance, lockedBalance := 0 }
  { st with balances := setA st.balances u b }

/-- `BalanceService::getBalance` (returns the looked-up-or-created balance). -/
def getBalance (bs : List (UserId × UserBalance)) (u : UserId) : UserBalance :=
  getOrCreateBalance bs u

/-- `BalanceService::lockFunds`. -/
def lockFunds (bs : List (UserId × UserBalance)) (u : UserId) (amount : Int) :
    ErrorCode × List (UserId × UserBalance) :=
  let b := getOrCreateBalance bs u
  if b.availableBalance < amount then (ErrorCode.INSUFFICIENT_BALANCE, bs)
  else (ErrorCode.SUCCESS, setA bs u
    { b with availableBalance := b.availableBalance - amount,
             lockedBalance := b.lockedBalance + amount })

/-- `BalanceService::unlockFunds`. -/
def unlockFunds (bs : List (UserId × UserBalance)) (u : UserId) (amount : Int) :
    ErrorCode × List (UserId × UserBalance) :=
  let b := getOrCreateBalance bs u
  if b.lockedBalance < amount then (ErrorCode.SYSTEM_ERROR, bs)
  else (ErrorCode.SUCCESS, setA bs u
    { b with lockedBalance := b.lockedBalance - amount,
             availableBalance := b.availableBalance + amount })

/-- `BalanceService::transferFunds`.  The debit of the sender is written back
before the recipient is read, which reproduces the C++ reference aliasing when
sender and recipient coincide. -/
def transferFunds (bs : List (UserId × UserBalance)) (fromUserId toUserId : UserId)
    (amount : Int) : ErrorCode × List (UserId × UserBalance) :=
  let fromBalance := getOrCreateBalance bs fromUserId
  if fromBalance.availableBalance < amount then (ErrorCode.INSUFFICIENT_BALANCE, bs)
  else
    let bs1 := setA bs fromUserId
      { fromBalance with availableBalance := fromBalance.availableBalance - amount }
    let toBalance := getOrCreateBalance bs1 toUserId
    (ErrorCode.SUCCESS, setA bs1 toUserId
      { toBalance with availableBalance := toBalance.availableBalance + amount })

/-- `BalanceService::completeTrade`: releases `lockedAmount` from locked and
credits back only a positive `lockedAmount - actualAmount` refund. -/
def completeTrade (bs : List (UserId × UserBalance)) (u : UserId)
    (lockedAmount actualAmount : Int) : ErrorCode × List (UserId × UserBalance) :=
  let b := getOrCreateBalance bs u
  if b.lockedBalance < lockedAmount then (ErrorCode.SYSTEM_ERROR, bs)
  else
    let refund := lockedAmount - actualAmount
    let avail := if refund > 0 then b.availableBalance + refund else b.availableBalance
    (ErrorCode.SUCCESS, setA bs u
      { b with lockedBalance := b.lockedBalance - lockedAmount,
               availableBalance := avail })

/-- `BalanceService::calculateRequiredFunds`. -/
def calculateRequiredFunds (o : Order) : Int :=
  if o.side = Side.BUY then o.price * (o.quantity : Int) else 0

/-! ## Price level and order book (orderbook.cpp) -/

/-- `PriceLevel::addOrder`. -/
def levelAddOrder (lvl : PriceLevel) (o : Order) : PriceLevel :=
  { lvl with orders := lvl.orders ++ [o.orderId],
             totalQuantity := lvl.totalQuantity + (o.quantity - o.filledQuantity) }

/-- `PriceLevel::removeOrder`: subtracts the order's current unfilled quantity
(read through the registry, as the C++ subtracts through the stored pointer)
and drops the id. -/
def levelRemoveOrder (reg : List (OrderId × Order)) (lvl : PriceLevel) (oid : OrderId) :
    PriceLevel :=
  if oid ∈ lvl.orders then
    let unfilled : Quantity :=
      match lookupA reg oid with
      | some o => o.quantity - o.filledQuantity
      | none => 0
    { lvl with totalQuantity := lvl.totalQuantity - unfilled,
               orders := removeId lvl.orders oid }
  else lvl

/-- Ladder insertion used by `OrderBook::addOrder`: find the level of the
order's price, else create it at its sorted position (`gt = true` for the
descending bid ladder, `false` for the ascending ask ladder). -/
def addToLevels (gt : Bool) : List (Price × PriceLevel) → Order → List (Price × PriceLevel)
  | [], o => [(o.price, levelAddOrder { price := o.price, totalQuantity := 0, orders := [] } o)]
  | (p, lvl) :: rest, o =>
    if o.price = p then (p, levelAddOrder lvl o) :: rest
    else if (if gt then p < o.price else o.price < p) then
      (o.price, levelAddOrder { price := o.price, totalQuantity := 0, orders := [] } o)
        :: (p, lvl) :: rest
    else (p, lvl) :: addToLevels gt rest o

/-- Ladder removal used by `OrderBook::removeOrder`: remove the id from the
level at the given price and prune the level if it became empty. -/
def removeFromLevels (reg : List (OrderId × Order)) :
    List (Price × PriceLevel) → Price → OrderId → List (Price × PriceLevel)
  | [], _, _ => []
  | (p, lvl) :: rest, price, oid =>
    if p = price then
      let lvl' := levelRemoveOrder reg lvl oid
      if lvl'.orders.isEmpty then rest else (p, lvl') :: rest
    else (p, lvl) :: removeFromLevels reg rest price oid

/-- The empty book created by `MatchingEngine::getOrderBook` for a new symbol. -/
def emptyBook (sym : String) : OrderBook :=
  { symbol := sym, bidLevels := [], askLevels := [], orderIds := [],
    lastTradePrice := 0, totalVolume := 0 }

/-- Read the book of a symbol (total stand-in for the shared pointer returned
by `MatchingEngine::getOrderBook`; composed flows call `ensureBook` first, so
the default is never observed with a fresh value). -/
def getBook (st : EngineState) (sym : String) : OrderBook :=
  (lookupA st.books sym).getD (emptyBook sym)

/-- Write back the book of a symbol. -/
def setBook (st : EngineState) (sym : String) (b : OrderBook) : EngineState :=
  { st with books := setA st.books sym b }

/-- The create-if-missing step of `MatchingEngine::getOrderBook`. -/
def ensureBook (st : EngineState) (sym : String) : EngineState :=
  match lookupA st.books sym with
  | some _ => st
  | none => { st with books := setA st.books sym (emptyBook sym) }

/-- Write an order into the registry (`shared_ptr` mutation seen through
`OrderService::orders_`). -/
def setOrderIn (st : EngineState) (oid : OrderId) (o : Order) : EngineState :=
  { st with orders := setA st.orders oid o }

/-- `OrderBook::addOrder`. -/
def bookAddOrder (st : EngineState) (o : Order) : EngineState :=
  let st := ensureBook st o.symbol
  let book := getBook st o.symbol
  let book := { book with orderIds :=
    if o.orderId ∈ book.orderIds then book.orderIds else book.orderIds ++ [o.orderId] }
  let book :=
    if o.side = Side.BUY then { book with bidLevels := addToLevels true book.bidLevels o }
    else { book with askLevels := addToLevels false book.askLevels o }
  setBook st o.symbol book

/-- `OrderBook::removeOrder`. -/
def bookRemoveOrder (st : EngineState) (sym : String) (oid : OrderId) (side : Side) :
    EngineState :=
  let st := ensureBook st sym
  let book := getBook st sym
  if oid ∈ book.orderIds then
    match lookupA st.orders oid with
    | none => setBook st sym { book with orderIds := removeId book.orderIds oid }
    | some o =>
      let book' :=
        if side = Side.BUY then
          { book with bidLevels := removeFromLevels st.orders book.bidLevels o.price oid,
                      orderIds := removeId book.orderIds oid }
        else
          { book with askLevels := removeFromLevels st.orders book.askLevels o.price oid,
                      orderIds := removeId book.orderIds oid }
      setBook st sym book'
  else st

/-- `OrderBook::getBestBidOrder` (front order of the best bid level,
dereferenced through the registry). -/
def getBestBidOrder (st : EngineState) (book : OrderBook) : Option Order :=
  match book.bidLevels with
  | [] => none
  | (_, lvl) :: _ =>
    match lvl.orders with
    | [] => none
    | oid :: _ => lookupA st.orders oid

/-- `OrderBook::getBestAskOrder`. -/
def getBestAskOrder (st : EngineState) (book : OrderBook) : Option Order :=
  match book.askLevels with
  | [] => none
  | (_, lvl) :: _ =>
    match lvl.orders with
    | [] => none
    | oid :: _ => lookupA st.orders oid

/-- `OrderBook::getBidDepth`. -/
def getBidDepth (book : OrderBook) (levels : Nat) : List (Price × Quantity) :=
  (book.bidLevels.take levels).map (fun pl => (pl.1, pl.2.totalQuantity))

/-- `OrderBook::getAskDepth`. -/
def getAskDepth (book : OrderBook) (levels : Nat) : List (Price × Quantity) :=
  (book.askLevels.take levels).map (fun pl => (pl.1, pl.2.totalQuantity))

/-- `OrderBook::updateLastTrade`. -/
def updateLastTrade (book : OrderBook) (price : Price) (quantity : Quantity) : OrderBook :=
  { book with lastTradePrice := price, totalVolume := book.totalVolume + quantity }

/-! ## Order registry (order_service.cpp) -/

/-- `OrderService::validateOrder`. -/
def validateOrder (o : Order) : ErrorCode :=
  if o.symbol = "" then ErrorCode.INVALID_SYMBOL
  else if o.quantity = 0 then ErrorCode.INVALID_QUANTITY
  else if o.type = OrderType.LIMIT ∧ o.price = 0 then ErrorCode.INVALID_PRICE
  else ErrorCode.SUCCESS

/-- The store step of `OrderService::createOrder` (registry and per-user index). -/
def storeOrder (st : EngineState) (o : Order) : EngineState :=
  { st with orders := setA st.orders o.orderId o,
            userOrders := setA st.userOrders o.userId
              ((lookupA st.userOrders o.userId).getD [] ++ [o.orderId]) }

/-- `OrderService::createOrder`: allocate id, validate, lock funds for BUY,
store.  Returns the (possibly REJECTED) order and the error code. -/
def createOrder (st : EngineState) (userId : UserId) (symbol : String) (side : Side)
    (otype : OrderType) (tif : TimeInForce) (price : Price) (quantity : Quantity) :
    EngineState × Order × ErrorCode :=
  let order : Order :=
    { orderId := st.nextOrderId, userId := userId, symbol := symbol, side := side,
      type := otype, timeInForce := tif, price := price, quantity := quantity,
      filledQuantity := 0, status := OrderStatus.PENDING }
  let st := { st with nextOrderId := st.nextOrderId + 1 }
  let v := validateOrder order
  if v ≠ ErrorCode.SUCCESS then (st, { order with status := OrderStatus.REJECTED }, v)
  else if side = Side.BUY then
    let requiredFunds := calculateRequiredFunds order
    let r := lockFunds st.balances userId requiredFunds
    if r.1 ≠ ErrorCode.SUCCESS then
      ({ st with balances := r.2 }, { order with status := OrderStatus.REJECTED }, r.1)
    else (storeOrder { st with balances := r.2 } order, order, ErrorCode.SUCCESS)
  else (storeOrder st order, order, ErrorCode.SUCCESS)

/-- `OrderService::cancelOrder`: ORDER_NOT_FOUND for an unknown id,
SYSTEM_ERROR unless the status is PENDING or PARTIALLY_FILLED, else unlock the
unfilled reservation of a BUY and transition to CANCELLED. -/
def osCancelOrder (st : EngineState) (oid : OrderId) : ErrorCode × EngineState :=
  match lookupA st.orders oid with
  | none => (ErrorCode.ORDER_NOT_FOUND, st)
  | some o =>
    if o.status ≠ OrderStatus.PENDING ∧ o.status ≠ OrderStatus.PARTIALLY_FILLED then
      (ErrorCode.SYSTEM_ERROR, st)
    else
      let st1 :=
        if o.side = Side.BUY then
          { st with balances := (unlockFunds st.balances o.userId
              (o.price * ((o.quantity - o.filledQuantity : Nat) : Int))).2 }
        else st
      (ErrorCode.SUCCESS, setOrderIn st1 oid { o with status := OrderStatus.CANCELLED })

/-! ## Matching engine (matching_engine.cpp) -/

/-- `notifyTrade` (the trade callback log). -/
def emitTrade (st : EngineState) (t : Trade) : EngineState :=
  { st with emittedTrades := st.emittedTrades ++ [t] }

/-- `MatchingEngine::executeTrade`: build the trade, run `completeTrade` and
`transferFunds` ignoring their return codes, and record the trade on the book. -/
def executeTrade (st : EngineState) (buyOrder sellOrder : Order) (tradePrice : Price)
    (tradeQuantity : Quantity) : EngineState × Trade :=
  let trade : Trade :=
    { tradeId := st.nextTradeId, buyOrderId := buyOrder.orderId,
      sellOrderId := sellOrder.orderId, buyUserId := buyOrder.userId,
      sellUserId := sellOrder.userId, symbol := buyOrder.symbol,
      price := tradePrice, quantity := tradeQuantity }
  let st := { st with nextTradeId := st.nextTradeId + 1 }
  let tradeValue : Int := tradePrice * (tradeQuantity : Int)
  let buyerLockedAmount : Int := buyOrder.price * (tradeQuantity : Int)
  let st := { st with balances :=
    (completeTrade st.balances buyOrder.userId buyerLockedAmount tradeValue).2 }
  let st := { st with balances :=
    (transferFunds st.balances buyOrder.userId sellOrder.userId tradeValue).2 }
  let st := ensureBook st trade.symbol
  let st := setBook st trade.symbol (updateLastTrade (getBook st trade.symbol) tradePrice tradeQuantity)
  (st, trade)

/-- The post-fill update of the resting counter-order (matching loop lines:
update filled quantity, set FILLED and remove from the book, or set
PARTIALLY_FILLED). -/
def counterUpdate (st : EngineState) (order counter : Order) (tradeQty : Quantity) :
    EngineState :=
  if counter.quantity ≤ counter.filledQuantity + tradeQty then
    bookRemoveOrder
      (setOrderIn st counter.orderId
        { counter with filledQuantity := counter.filledQuantity + tradeQty,
                       status := OrderStatus.FILLED })
      order.symbol counter.orderId counter.side
  else
    setOrderIn st counter.orderId
      { counter with filledQuantity := counter.filledQuantity + tradeQty,
                     status := OrderStatus.PARTIALLY_FILLED }

/-- One iteration body of the matching loops, shared verbatim between
`matchLimitOrder` and `matchMarketOrder` in the source: execute the trade at
the counter-order's price for `min(remaining, counter remaining)`, update both
filled quantities and the maker's status/book residence, and emit the trade. -/
def tradeStep (st : EngineState) (oid : OrderId) (order counter : Order) :
    EngineState × Trade :=
  let tradeQty := min (order.quantity - order.filledQuantity)
    (counter.quantity - counter.filledQuantity)
  let r := executeTrade st (if order.side = Side.BUY then order else counter)
    (if order.side = Side.BUY then counter else order) counter.price tradeQty
  let st2 := setOrderIn r.1 oid
    { order with filledQuantity := order.filledQuantity + tradeQty }
  (emitTrade (counterUpdate st2 order counter tradeQty) r.2, r.2)

/-- Counterparty selection of `matchLimitOrder`: best opposite order, rejected
when its price does not satisfy the incoming limit. -/
def limitCounter (st : EngineState) (order : Order) : Option Order :=
  let book := getBook st order.symbol
  if order.side = Side.BUY then
    match getBestAskOrder st book with
    | none => none
    | some c => if c.price > order.price then none else some c
  else
    match getBestBidOrder st book with
    | none => none
    | some c => if c.price < order.price then none else some c

/-- Counterparty selection of `matchMarketOrder`: best opposite order,
unconditionally. -/
def marketCounter (st : EngineState) (order : Order) : Option Order :=
  let book := getBook st order.symbol
  if order.side = Side.BUY then getBestAskOrder st book else getBestBidOrder st book

/-- The `while` loop of `MatchingEngine::matchLimitOrder`. -/
def matchLimitLoop : Nat → EngineState → OrderId → EngineState × List Trade
  | 0, st, _ => (st, [])
  | fuel + 1, st, oid =>
    match lookupA st.orders oid with
    | none => (st, [])
    | some order =>
      if order.filledQuantity < order.quantity then
        match limitCounter st order with
        | none => (st, [])
        | some counter =>
          let r := tradeStep st oid order counter
          let rec' := matchLimitLoop fuel r.1 oid
          (rec'.1, r.2 :: rec'.2)
      else (st, [])

/-- The `while` loop of `MatchingEngine::matchMarketOrder`. -/
def matchMarketLoop : Nat → EngineState → OrderId → EngineState × List Trade
  | 0, st, _ => (st, [])
  | fuel + 1, st, oid =>
    match lookupA st.orders oid with
    | none => (st, [])
    | some order =>
      if order.filledQuantity < order.quantity then
        match marketCounter st order with
        | none => (st, [])
        | some counter =>
          let r := tradeStep st oid order counter
          let rec' := matchMarketLoop fuel r.1 oid
          (rec'.1, r.2 :: rec'.2)
      else (st, [])

/-- `MatchingEngine::matchLimitOrder`: loop, then the final status update of
the incoming order. -/
def matchLimitOrder (fuel : Nat) (st : EngineState) (oid : OrderId) :
    EngineState × List Trade :=
  let r := matchLimitLoop fuel st oid
  match lookupA r.1.orders oid with
  | none => r
  | some o =>
    let o' :=
      if o.quantity ≤ o.filledQuantity then { o with status := OrderStatus.FILLED }
      else if 0 < o.filledQuantity then { o with status := OrderStatus.PARTIALLY_FILLED }
      else o
    (setOrderIn r.1 oid o', r.2)

/-- `MatchingEngine::matchMarketOrder`: loop, then FILLED / PARTIALLY_FILLED /
CANCELLED final status. -/
def matchMarketOrder (fuel : Nat) (st : EngineState) (oid : OrderId) :
    EngineState × List Trade :=
  let r := matchMarketLoop fuel st oid
  match lookupA r.1.orders oid with
  | none => r
  | some o =>
    let o' :=
      if o.quantity ≤ o.filledQuantity then { o with status := OrderStatus.FILLED }
      else if 0 < o.filledQuantity then { o with status := OrderStatus.PARTIALLY_FILLED }
      else { o with status := OrderStatus.CANCELLED }
    (setOrderIn r.1 oid o', r.2)

/-- `MatchingEngine::handleIOC`: unlock the BUY reservation of the unfilled
remainder and finish in CANCELLED or PARTIALLY_FILLED. -/
def handleIOC (st : EngineState) (oid : OrderId) : EngineState :=
  match lookupA st.orders oid with
  | none => st
  | some o =>
    if o.filledQuantity < o.quantity then
      let st1 :=
        if o.side = Side.BUY then
          { st with balances := (unlockFunds st.balances o.userId
              (o.price * ((o.quantity - o.filledQuantity : Nat) : Int))).2 }
        else st
      let o' :=
        if o.filledQuantity = 0 then { o with status := OrderStatus.CANCELLED }
        else { o with status := OrderStatus.PARTIALLY_FILLED }
      setOrderIn st1 oid o'
    else st

/-- The depth walk of `MatchingEngine::canFillCompletely` over one ladder. -/
def walkDepth (o : Order) (isBuy : Bool) : List (Price × Quantity) → Quantity → Bool
  | [], _ => false
  | (p, q) :: rest, acc =>
    if o.type = OrderType.LIMIT ∧ (if isBuy then o.price < p else p < o.price) then false
    else
      let acc' := acc + q
      if o.quantity ≤ acc' then true else walkDepth o isBuy rest acc'

/-- `MatchingEngine::canFillCompletely` (depth bounded by 100 levels). -/
def canFillCompletely (o : Order) (book : OrderBook) : Bool :=
  if o.side = Side.BUY then walkDepth o true (getAskDepth book 100) 0
  else walkDepth o false (getBidDepth book 100) 0

/-- `MatchingEngine::handleFOK`: on a failed completeness check, unlock the
whole BUY reservation and report failure. -/
def handleFOK (st : EngineState) (oid : OrderId) : Bool × EngineState :=
  match lookupA st.orders oid with
  | none => (true, st)
  | some o =>
    if canFillCompletely o (getBook st o.symbol) then (true, st)
    else
      let st' :=
        if o.side = Side.BUY then
          { st with balances := (unlockFunds st.balances o.userId
              (o.price * (o.quantity : Int))).2 }
        else st
      (false, st')

/-- The rest-in-book step at the end of `MatchingEngine::processOrder`: a GFD
LIMIT order with an unfilled remainder that is not CANCELLED is added to the
book. -/
def restGFD (st : EngineState) (oid : OrderId) : EngineState :=
  match lookupA st.orders oid with
  | none => st
  | some o =>
    if o.timeInForce = TimeInForce.GFD ∧ o.type = OrderType.LIMIT ∧
        o.filledQuantity < o.quantity ∧ o.status ≠ OrderStatus.CANCELLED then
      bookAddOrder st o
    else st

/-- The post-match section of `MatchingEngine::processOrder`: IOC handling,
the FOK completeness check (which therefore runs only after the matching loop
already executed) with its cancel-and-return-no-trades failure path, and the
GFD rest step. -/
def processPost (r : EngineState × List Trade) (oid : OrderId) :
    EngineState × List Trade :=
  match lookupA r.1.orders oid with
  | none => r
  | some order1 =>
    if order1.timeInForce = TimeInForce.IOC then
      (restGFD (handleIOC r.1 oid) oid, r.2)
    else if order1.timeInForce = TimeInForce.FOK then
      let f := handleFOK r.1 oid
      if f.1 then (restGFD f.2 oid, r.2)
      else (setOrderIn f.2 oid { order1 with status := OrderStatus.CANCELLED }, [])
    else (restGFD r.1 oid, r.2)

/-- `MatchingEngine::processOrder`: match against the book of the order's
symbol, then the IOC/FOK/GFD-rest phase. -/
def processOrder (fuel : Nat) (st : EngineState) (oid : OrderId) :
    EngineState × List Trade :=
  match lookupA st.orders oid with
  | none => (st, [])
  | some order0 =>
    let st := ensureBook st order0.symbol
    processPost
      (if order0.type = OrderType.LIMIT then matchLimitOrder fuel st oid
       else matchMarketOrder fuel st oid) oid

/-! ## Engine façade (trading_engine.cpp) -/

/-- `TradingEngine::submitOrder`: create (with fund locking), then run the
matching engine.  Returns the allocated order id and the error code. -/
def submitOrder (fuel : Nat) (st : EngineState) (userId : UserId) (symbol : String)
    (side : Side) (otype : OrderType) (tif : TimeInForce) (price : Price)
    (quantity : Quantity) : EngineState × OrderId × ErrorCode :=
  let c := createOrder st userId symbol side otype tif price quantity
  if c.2.2 ≠ ErrorCode.SUCCESS then (c.1, c.2.1.orderId, c.2.2)
  else
    let r := processOrder fuel c.1 c.2.1.orderId
    (r.1, c.2.1.orderId, ErrorCode.SUCCESS)

/-- `TradingEngine::cancelOrder`: registry cancel, then removal from the book
on success. -/
def engineCancelOrder (st : EngineState) (oid : OrderId) : ErrorCode × EngineState :=
  match lookupA st.orders oid with
  | none => (ErrorCode.ORDER_NOT_FOUND, st)
  | some o =>
    let r := osCancelOrder st oid
    if r.1 = ErrorCode.SUCCESS then (r.1, bookRemoveOrder r.2 o.symbol oid o.side)
    else r

/-! ## Derived notions used by the claims -/

/-- Ids stored in the levels of a ladder. -/
def levelsOrderIds : List (Price × PriceLevel) → List OrderId
  | [] => []
  | (_, lvl) :: rest => lvl.orders ++ levelsOrderIds rest

/-- All ids a book holds, through its lookup map or either ladder. -/
def bookIds (b : OrderBook) : List OrderId :=
  b.orderIds ++ levelsOrderIds b.bidLevels ++ levelsOrderIds b.askLevels

/-- The order rests in the book of the symbol. -/
def bookHasId (st : EngineState) (sym : String) (oid : OrderId) : Prop :=
  oid ∈ bookIds (getBook st sym)

instance (st : EngineState) (sym : String) (oid : OrderId) :
    Decidable (bookHasId st sym oid) := by
  unfold bookHasId; infer_instance

/-- Registry coherence: every registry cell stores an order whose `orderId`
field is its key (guaranteed by construction in the C++ maps). -/
def Coherent (st : EngineState) : Prop :=
  ∀ p ∈ st.orders, (p.2).orderId = p.1

instance (st : EngineState) : Decidable (Coherent st) := by
  unfold Coherent; infer_instance

/-- Every registry order has `filledQuantity ≤ quantity`. -/
def FilledLE (st : EngineState) : Prop :=
  ∀ p ∈ st.orders, (p.2).filledQuantity ≤ (p.2).quantity

instance (st : EngineState) : Decidable (FilledLE st) := by
  unfold FilledLE; infer_instance

/-- The fields of an order that the matching engine never mutates. -/
def SameCore (o o' : Order) : Prop :=
  o'.orderId = o.orderId ∧ o'.userId = o.userId ∧ o'.symbol = o.symbol ∧
  o'.side = o.side ∧ o'.type = o.type ∧ o'.timeInForce = o.timeInForce ∧
  o'.price = o.price ∧ o'.quantity = o.quantity

/-- State evolution of the registry during matching: no entry appears or
disappears, and every entry keeps its immutable core. -/
def RegPres (st st' : EngineState) : Prop :=
  ∀ id : OrderId,
    (∀ o, lookupA st.orders id = some o →
      ∃ o', lookupA st'.orders id = some o' ∧ SameCore o o') ∧
    (lookupA st.orders id = none → lookupA st'.orders id = none)

/-- The maker-price/limit-price discipline of one trade, read against a state
and the side of the incoming (taker) order: a LIMIT buy participant never pays
above its limit, a LIMIT sell participant never receives below its limit, and
the counterparty of the taker (the maker) traded exactly at its own price. -/
def tradeOK (st : EngineState) (takerSide : Side) (t : Trade) : Prop :=
  (∀ b, lookupA st.orders t.buyOrderId = some b →
    b.type = OrderType.LIMIT → t.price ≤ b.price) ∧
  (∀ s, lookupA st.orders t.sellOrderId = some s →
    s.type = OrderType.LIMIT → s.price ≤ t.price) ∧
  (takerSide = Side.BUY → ∀ s, lookupA st.orders t.sellOrderId = some s →
    s.price = t.price) ∧
  (takerSide = Side.SELL → ∀ b, lookupA st.orders t.buyOrderId = some b →
    b.price = t.price)

/-- Sum of `quantity - filledQuantity` over the orders of a level, read
through the registry (the quantity the spec says `totalQuantity` tracks). -/
def levelSumUnfilled (st : EngineState) (lvl : PriceLevel) : Nat :=
  (lvl.orders.map (fun oid =>
    match lookupA st.orders oid with
    | some o => o.quantity - o.filledQuantity
    | none => 0)).sum

/-! ## Concrete scenario states (spec section 8, users 1 and 2 seeded with
1,000,000 cents) -/

/-- The empty engine. -/
def st0 : EngineState :=
  { orders := [], userOrders := [], balances := [], books := [],
    nextOrderId := 1, nextTradeId := 1, emittedTrades := [] }

/-- Both users seeded with 1,000,000. -/
def seeded : EngineState := initializeBalance (initializeBalance st0 1 1000000) 2 1000000

/-- Scenario 1 state after `SELL LIMIT GFD 10000 qty 5` by user 2. -/
def c1mid : EngineState :=
  (submitOrder 10 seeded 2 "X" Side.SELL OrderType.LIMIT TimeInForce.GFD 10000 5).1

/-- Scenario 1 final state after `BUY LIMIT GFD 10500 qty 5` by user 1. -/
def c1fin : EngineState :=
  (submitOrder 10 c1mid 1 "X" Side.BUY OrderType.LIMIT TimeInForce.GFD 10500 5).1

/-- Scenario 4 state after `SELL LIMIT GFD 10000 qty 3` by user 2. -/
def c2mid : EngineState :=
  (submitOrder 10 seeded 2 "X" Side.SELL OrderType.LIMIT TimeInForce.GFD 10000 3).1

/-- Scenario 4 final state after `BUY LIMIT FOK 10000 qty 10` by user 1. -/
def c2fin : EngineState :=
  (submitOrder 10 c2mid 1 "X" Side.BUY OrderType.LIMIT TimeInForce.FOK 10000 10).1

/-- Level-invariant scenario: `SELL LIMIT GFD 10000 qty 10` by user 2. -/
def c3mid : EngineState :=
  (submitOrder 10 seeded 2 "X" Side.SELL OrderType.LIMIT TimeInForce.GFD 10000 10).1

/-- Level-invariant scenario final state after `BUY LIMIT GFD 10000 qty 4` by
user 1: the resting sell is partially filled in place. -/
def c3fin : EngineState :=
  (submitOrder 10 c3mid 1 "X" Side.BUY OrderType.LIMIT TimeInForce.GFD 10000 4).1

/-- Exact-fill FOK scenario: `SELL LIMIT GFD 10000 qty 5` by user 2, then the
creation (not yet processing) of `BUY LIMIT FOK 10000 qty 5` by user 1. -/
def c4pre : EngineState :=
  (createOrder (submitOrder 10 seeded 2 "X" Side.SELL OrderType.LIMIT TimeInForce.GFD 10000 5).1
    1 "X" Side.BUY OrderType.LIMIT TimeInForce.FOK 10000 5).1

/-- Scenario 1 state right before the incoming buy is processed: the buy has
been created (funds locked) but not yet matched. -/
def c5pre : EngineState :=
  (createOrder c1mid 1 "X" Side.BUY OrderType.LIMIT TimeInForce.GFD 10500 5).1

/-- The created (not yet processed) incoming buy of `c5pre`. -/
def c5buy : Order :=
  (createOrder c1mid 1 "X" Side.BUY OrderType.LIMIT TimeInForce.GFD 10500 5).2.1

/-- Scenario 3 state after `SELL LIMIT GFD 10000 qty 3` by user 2. -/
def c6mid : EngineState :=
  (submitOrder 10 seeded 2 "X" Side.SELL OrderType.LIMIT TimeInForce.GFD 10000 3).1

/-- Scenario 3 final state after `BUY LIMIT IOC 10000 qty 10` by user 1. -/
def c6fin : EngineState :=
  (submitOrder 10 c6mid 1 "X" Side.BUY OrderType.LIMIT TimeInForce.IOC 10000 10).1

/-- Scenario 3 state right before the incoming IOC buy is processed. -/
def c6pre : EngineState :=
  (createOrder c6mid 1 "X" Side.BUY OrderType.LIMIT TimeInForce.IOC 10000 10).1

/-- The created (not yet processed) incoming IOC buy of `c6pre`. -/
def c6buy : Order :=
  (createOrder c6mid 1 "X" Side.BUY OrderType.LIMIT TimeInForce.IOC 10000 10).2.1

/-- A concrete active BUY order used to witness the cancel semantics. -/
def c7wOrder : Order :=
  { orderId := 1, userId := 1, symbol := "X", side := Side.BUY,
    type := OrderType.LIMIT, timeInForce := TimeInForce.GFD, price := 10000,
    quantity := 5, filledQuantity := 2, status := OrderStatus.PARTIALLY_FILLED }

/-- A concrete engine state holding `c7wOrder` and its reservation. -/
def c7wSt : EngineState :=
  { orders := [(1, c7wOrder)], userOrders := [(1, [1])],
    balances := [(1, { userId := 1, availableBalance := 950000, lockedBalance := 50000 })],
    books := [], nextOrderId := 2, nextTradeId := 1, emittedTrades := [] }

/-- A concrete ledger with locked balance 10 for user 1. -/
def c9wBs : List (UserId × UserBalance) :=
  [(1, { userId := 1, availableBalance := 5, lockedBalance := 10 })]

/-- A concrete ledger knowing only user 2 (100 available). -/
def c10wBs : List (UserId × UserBalance) :=
  [(2, { userId := 2, availableBalance := 100, lockedBalance := 0 })]

/-- A concrete buy order whose owner (user 1) holds no funds at all. -/
def c8wB : Order :=
  { orderId := 1, userId := 1, symbol := "X", side := Side.BUY,
    type := OrderType.LIMIT, timeInForce := TimeInForce.GFD, price := 10000,
    quantity := 1, filledQuantity := 0, status := OrderStatus.PENDING }

/-- The matching concrete sell order of user 2. -/
def c8wS : Order :=
  { orderId := 2, userId := 2, symbol := "X", side := Side.SELL,
    type := OrderType.LIMIT, timeInForce := TimeInForce.GFD, price := 10000,
    quantity := 1, filledQuantity := 0, status := OrderStatus.PENDING }

/-! ## Association-list and balance lemmas -/

theorem lookupA_setA_self {κ α : Type} [DecidableEq κ] (l : List (κ × α)) (k : κ) (v : α) :
    lookupA (setA l k v) k = some v := by
  induction l with
  | nil => simp [setA, lookupA]
  | cons hd tl ih =>
    by_cases h : k = hd.1
    · simp [setA, lookupA, h]
    · cases hd with
      | mk k' w => simp only [setA]; rw [if_neg h]; simp [lookupA, h, ih]

theorem lookupA_setA_ne {κ α : Type} [DecidableEq κ] (l : List (κ × α)) (k k' : κ) (v : α)
    (h : k' ≠ k) : lookupA (setA l k v) k' = lookupA l k' := by
  induction l with
  | nil => simp [setA, lookupA, h]
  | cons hd tl ih =>
    cases hd with
    | mk k0 w =>
      by_cases h0 : k = k0
      · subst h0; simp [setA, lookupA, h]
      · simp only [setA]; rw [if_neg h0]
        by_cases h1 : k' = k0
        · simp [lookupA, h1]
        · simp [lookupA, h1, ih]

theorem mem_setA {κ α : Type} [DecidableEq κ] (l : List (κ × α)) (k : κ) (v : α)
    (p : κ × α) (hp : p ∈ setA l k v) : p = (k, v) ∨ p ∈ l := by
  induction l with
  | nil =>
    simp only [setA, List.mem_singleton] at hp
    exact Or.inl hp
  | cons hd tl ih =>
    rcases hd with ⟨k0, w⟩
    by_cases h0 : k = k0
    · subst h0
      simp only [setA, if_true, eq_self_iff_true, List.mem_cons] at hp
      rcases hp with h | h
      · exact Or.inl h
      · exact Or.inr (List.mem_cons_of_mem _ h)
    · simp only [setA, if_neg h0, List.mem_cons] at hp
      rcases hp with h | h
      · exact Or.inr (by simp [h])
      · rcases ih h with h' | h'
        · exact Or.inl h'
        · exact Or.inr (List.mem_cons_of_mem _ h')

theorem lookupA_mem {κ α : Type} [DecidableEq κ] (l : List (κ × α)) (k : κ) (v : α)
    (h : lookupA l k = some v) : (k, v) ∈ l := by
  induction l with
  | nil => simp [lookupA] at h
  | cons hd tl ih =>
    rcases hd with ⟨k0, w⟩
    by_cases h0 : k = k0
    · subst h0
      have h' : w = v := by simpa [lookupA] using h
      subst h'
      exact List.mem_cons_self _ _
    · simp only [lookupA, if_neg h0] at h
      exact List.mem_cons_of_mem _ (ih h)

theorem mem_removeId (l : List Nat) (y x : Nat) (h : x ∈ removeId l y) : x ∈ l := by
  induction l with
  | nil => simp [removeId] at h
  | cons hd tl ih =>
    by_cases h0 : hd = y
    · simp only [removeId, if_pos h0] at h
      exact List.mem_cons_of_mem _ h
    · simp only [removeId, if_neg h0, List.mem_cons] at h
      rcases h with h | h
      · simp [h]
      · exact List.mem_cons_of_mem _ (ih h)

theorem getOrCreateBalance_setA_self (bs : List (UserId × UserBalance)) (u : UserId)
    (b : UserBalance) : getOrCreateBalance (setA bs u b) u = b := by
  simp [getOrCreateBalance, lookupA_setA_self]

theorem getOrCreateBalance_setA_ne (bs : List (UserId × UserBalance)) (u u' : UserId)
    (b : UserBalance) (h : u' ≠ u) :
    getOrCreateBalance (setA bs u b) u' = getOrCreateBalance bs u' := by
  simp [getOrCreateBalance, lookupA_setA_ne _ _ _ _ h]

theorem getOrCreateBalance_completeTrade_ne (bs : List (UserId × UserBalance))
    (u u' : UserId) (la aa : Int) (h : u' ≠ u) :
    getOrCreateBalance (completeTrade bs u la aa).2 u' = getOrCreateBalance bs u' := by
  unfold completeTrade
  by_cases hc : (getOrCreateBalance bs u).lockedBalance < la
  · simp [hc]
  · simp [hc, getOrCreateBalance_setA_ne _ _ _ _ h]

/-! ## Per-operation state lemmas -/

theorem orders_ensureBook (st : EngineState) (sym : String) :
    (ensureBook st sym).orders = st.orders := by
  unfold ensureBook
  cases lookupA st.books sym <;> rfl

theorem balances_ensureBook (st : EngineState) (sym : String) :
    (ensureBook st sym).balances = st.balances := by
  unfold ensureBook
  cases lookupA st.books sym <;> rfl

theorem emittedTrades_ensureBook (st : EngineState) (sym : String) :
    (ensureBook st sym).emittedTrades = st.emittedTrades := by
  unfold ensureBook
  cases lookupA st.books sym <;> rfl

theorem getBook_ensureBook (st : EngineState) (sym' sym : String) :
    getBook (ensureBook st sym') sym = getBook st sym := by
  unfold ensureBook
  cases h : lookupA st.books sym' with
  | some b => rfl
  | none =>
    show getBook { st with books := setA st.books sym' (emptyBook sym') } sym = getBook st sym
    by_cases hs : sym = sym'
    · subst hs
      simp [getBook, lookupA_setA_self, h]
    · simp [getBook, lookupA_setA_ne _ _ _ _ hs]

theorem getBook_setBook_self (st : EngineState) (sym : String) (b : OrderBook) :
    getBook (setBook st sym b) sym = b := by
  simp [getBook, setBook, lookupA_setA_self]

theorem getBook_setBook_ne (st : EngineState) (sym sym' : String) (b : OrderBook)
    (h : sym' ≠ sym) : getBook (setBook st sym b) sym' = getBook st sym' := by
  simp [getBook, setBook, lookupA_setA_ne _ _ _ _ h]

theorem orders_executeTrade (st : EngineState) (b s : Order) (p : Price) (q : Quantity) :
    (executeTrade st b s p q).1.orders = st.orders := by
  simp [executeTrade, setBook, orders_ensureBook]

theorem emittedTrades_executeTrade (st : EngineState) (b s : Order) (p : Price)
    (q : Quantity) : (executeTrade st b s p q).1.emittedTrades = st.emittedTrades := by
  simp [executeTrade, setBook, emittedTrades_ensureBook]

theorem balances_executeTrade (st : EngineState) (b s : Order) (p : Price) (q : Quantity) :
    (executeTrade st b s p q).1.balances =
      (transferFunds (completeTrade st.balances b.userId (b.price * (q : Int))
        (p * (q : Int))).2 b.userId s.userId (p * (q : Int))).2 := by
  simp [executeTrade, setBook, balances_ensureBook]

theorem trade_executeTrade (st : EngineState) (b s : Order) (p : Price) (q : Quantity) :
    (executeTrade st b s p q).2 =
      { tradeId := st.nextTradeId, buyOrderId := b.orderId, sellOrderId := s.orderId,
        buyUserId := b.userId, sellUserId := s.userId, symbol := b.symbol,
        price := p, quantity := q } := rfl

theorem getBook_executeTrade_self (st : EngineState) (b s : Order) (p : Price)
    (q : Quantity) :
    getBook (executeTrade st b s p q).1 b.symbol =
      updateLastTrade (getBook st b.symbol) p q := by
  simp only [executeTrade, getBook_setBook_self, getBook_ensureBook]
  rfl

theorem getBook_executeTrade_ne (st : EngineState) (b s : Order) (p : Price)
    (q : Quantity) (sym : String) (h : sym ≠ b.symbol) :
    getBook (executeTrade st b s p q).1 sym = getBook st sym := by
  simp only [executeTrade, getBook_setBook_ne _ _ _ _ h, getBook_ensureBook]
  rfl

theorem bookIds_updateLastTrade (bk : OrderBook) (p : Price) (q : Quantity) :
    bookIds (updateLastTrade bk p q) = bookIds bk := rfl

theorem bookHasId_executeTrade (st : EngineState) (b s : Order) (p : Price) (q : Quantity)
    (sym : String) (id : OrderId) :
    bookHasId (executeTrade st b s p q).1 sym id ↔ bookHasId st sym id := by
  by_cases h : sym = b.symbol
  · subst h
    rw [bookHasId, getBook_executeTrade_self, bookIds_updateLastTrade]
    rfl
  · rw [bookHasId, getBook_executeTrade_ne _ _ _ _ _ _ h]
    rfl

theorem orders_setBook (st : EngineState) (sym : String) (b : OrderBook) :
    (setBook st sym b).orders = st.orders := rfl

theorem orders_setOrderIn (st : EngineState) (k : OrderId) (o : Order) :
    (setOrderIn st k o).orders = setA st.orders k o := rfl

theorem books_setOrderIn (st : EngineState) (k : OrderId) (o : Order) :
    (setOrderIn st k o).books = st.books := rfl

theorem emittedTrades_setOrderIn (st : EngineState) (k : OrderId) (o : Order) :
    (setOrderIn st k o).emittedTrades = st.emittedTrades := rfl

theorem bookHasId_setOrderIn (st : EngineState) (k : OrderId) (o : Order) (sym : String)
    (id : OrderId) : bookHasId (setOrderIn st k o) sym id ↔ bookHasId st sym id :=
  Iff.rfl

theorem orders_bookRemoveOrder (st : EngineState) (sym : String) (oid : OrderId)
    (side : Side) : (bookRemoveOrder st sym oid side).orders = st.orders := by
  unfold bookRemoveOrder
  dsimp only
  split
  · split <;> simp [setBook, orders_ensureBook]
  · simp [orders_ensureBook]

theorem balances_bookRemoveOrder (st : EngineState) (sym : String) (oid : OrderId)
    (side : Side) : (bookRemoveOrder st sym oid side).balances = st.balances := by
  unfold bookRemoveOrder
  dsimp only
  split
  · split <;> simp [setBook, balances_ensureBook]
  · simp [balances_ensureBook]

theorem emittedTrades_bookRemoveOrder (st : EngineState) (sym : String) (oid : OrderId)
    (side : Side) :
    (bookRemoveOrder st sym oid side).emittedTrades = st.emittedTrades := by
  unfold bookRemoveOrder
  dsimp only
  split
  · split <;> simp [setBook, emittedTrades_ensureBook]
  · simp [emittedTrades_ensureBook]

theorem orders_emitTrade (st : EngineState) (t : Trade) :
    (emitTrade st t).orders = st.orders := rfl

theorem books_emitTrade (st : EngineState) (t : Trade) :
    (emitTrade st t).books = st.books := rfl

theorem emittedTrades_emitTrade (st : EngineState) (t : Trade) :
    (emitTrade st t).emittedTrades = st.emittedTrades ++ [t] := rfl

theorem bookHasId_emitTrade (st : EngineState) (t : Trade) (sym : String) (id : OrderId) :
    bookHasId (emitTrade st t) sym id ↔ bookHasId st sym id := Iff.rfl

theorem mem_levelsOrderIds_removeFromLevels (reg : List (OrderId × Order))
    (ls : List (Price × PriceLevel)) (price : Price) (oid : OrderId) (x : OrderId)
    (h : x ∈ levelsOrderIds (removeFromLevels reg ls price oid)) :
    x ∈ levelsOrderIds ls := by
  induction ls with
  | nil => simpa [removeFromLevels] using h
  | cons hd tl ih =>
    rcases hd with ⟨p, lvl⟩
    by_cases hp : p = price
    · simp only [removeFromLevels, if_pos hp] at h
      by_cases he : (levelRemoveOrder reg lvl oid).orders.isEmpty
      · rw [if_pos he] at h
        simp only [levelsOrderIds, List.mem_append]
        exact Or.inr h
      · rw [if_neg he] at h
        simp only [levelsOrderIds, List.mem_append] at h ⊢
        rcases h with h | h
        · left
          unfold levelRemoveOrder at h
          by_cases hm : oid ∈ lvl.orders
          · rw [if_pos hm] at h
            exact mem_removeId _ _ _ h
          · rw [if_neg hm] at h
            exact h
        · exact Or.inr h
    · simp only [removeFromLevels, if_neg hp, levelsOrderIds, List.mem_append] at h ⊢
      rcases h with h | h
      · exact Or.inl h
      · exact Or.inr (ih h)

theorem bookHasId_bookRemoveOrder (st : EngineState) (sym : String) (oid : OrderId)
    (side : Side) (sym' : String) (id : OrderId)
    (h : bookHasId (bookRemoveOrder st sym oid side) sym' id) :
    bookHasId st sym' id := by
  revert h
  unfold bookRemoveOrder
  dsimp only
  split
  · split
    · intro h
      by_cases hs : sym' = sym
      · subst hs
        rw [bookHasId, getBook_setBook_self] at h
        rw [bookHasId, ← getBook_ensureBook st sym' sym']
        simp only [bookIds, List.mem_append] at h ⊢
        rcases h with (h | h) | h
        · exact Or.inl (Or.inl (mem_removeId _ _ _ h))
        · exact Or.inl (Or.inr h)
        · exact Or.inr h
      · rw [bookHasId, getBook_setBook_ne _ _ _ _ hs, getBook_ensureBook] at h
        exact h
    · intro h
      by_cases hs : sym' = sym
      · subst hs
        rw [bookHasId, getBook_setBook_self] at h
        rw [bookHasId, ← getBook_ensureBook st sym' sym']
        by_cases hb : side = Side.BUY
        · rw [if_pos hb] at h
          simp only [bookIds, List.mem_append] at h ⊢
          rcases h with (h | h) | h
          · exact Or.inl (Or.inl (mem_removeId _ _ _ h))
          · exact Or.inl (Or.inr (mem_levelsOrderIds_removeFromLevels _ _ _ _ _ h))
          · exact Or.inr h
        · rw [if_neg hb] at h
          simp only [bookIds, List.mem_append] at h ⊢
          rcases h with (h | h) | h
          · exact Or.inl (Or.inl (mem_removeId _ _ _ h))
          · exact Or.inl (Or.inr h)
          · exact Or.inr (mem_levelsOrderIds_removeFromLevels _ _ _ _ _ h)
      · rw [bookHasId, getBook_setBook_ne _ _ _ _ hs, getBook_ensureBook] at h
        exact h
  · intro h
    rw [bookHasId, getBook_ensureBook] at h
    exact h

/-! ## Invariant transport lemmas -/

theorem sameCore_refl (o : Order) : SameCore o o :=
  ⟨rfl, rfl, rfl, rfl, rfl, rfl, rfl, rfl⟩

theorem sameCore_trans {a b c : Order} (h1 : SameCore a b) (h2 : SameCore b c) :
    SameCore a c := by
  obtain ⟨x1, x2, x3, x4, x5, x6, x7, x8⟩ := h1
  obtain ⟨y1, y2, y3, y4, y5, y6, y7, y8⟩ := h2
  exact ⟨y1.trans x1, y2.trans x2, y3.trans x3, y4.trans x4, y5.trans x5,
    y6.trans x6, y7.trans x7, y8.trans x8⟩

theorem coherent_of_orders_eq {st st' : EngineState} (h : st'.orders = st.orders)
    (hc : Coherent st) : Coherent st' := by
  intro p hp
  exact hc p (h ▸ hp)

theorem filledLE_of_orders_eq {st st' : EngineState} (h : st'.orders = st.orders)
    (hf : FilledLE st) : FilledLE st' := by
  intro p hp
  exact hf p (h ▸ hp)

theorem regPres_of_orders_eq {st st' : EngineState} (h : st'.orders = st.orders) :
    RegPres st st' := by
  intro id
  constructor
  · intro o ho
    exact ⟨o, by rw [h]; exact ho, sameCore_refl o⟩
  · intro hn
    rw [h]
    exact hn

theorem regPres_refl (st : EngineState) : RegPres st st :=
  regPres_of_orders_eq rfl

theorem regPres_trans {s1 s2 s3 : EngineState} (h1 : RegPres s1 s2) (h2 : RegPres s2 s3) :
    RegPres s1 s3 := by
  intro id
  constructor
  · intro o ho
    obtain ⟨o', ho', hc'⟩ := (h1 id).1 o ho
    obtain ⟨o'', ho'', hc''⟩ := (h2 id).1 o' ho'
    exact ⟨o'', ho'', sameCore_trans hc' hc''⟩
  · intro hn
    exact (h2 id).2 ((h1 id).2 hn)

theorem coherent_setOrderIn {st : EngineState} (hc : Coherent st) (k : OrderId)
    (o : Order) (hid : o.orderId = k) : Coherent (setOrderIn st k o) := by
  intro p hp
  rw [orders_setOrderIn] at hp
  rcases mem_setA _ _ _ _ hp with h | h
  · rw [h]
    exact hid
  · exact hc p h

theorem filledLE_setOrderIn {st : EngineState} (hf : FilledLE st) (k : OrderId)
    (o : Order) (hle : o.filledQuantity ≤ o.quantity) : FilledLE (setOrderIn st k o) := by
  intro p hp
  rw [orders_setOrderIn] at hp
  rcases mem_setA _ _ _ _ hp with h | h
  · rw [h]
    exact hle
  · exact hf p h

theorem regPres_setOrderIn {st : EngineState} (k : OrderId) (o0 o : Order)
    (hk : lookupA st.orders k = some o0) (hsc : SameCore o0 o) :
    RegPres st (setOrderIn st k o) := by
  intro id
  constructor
  · intro o' ho'
    by_cases h : id = k
    · subst h
      rw [hk] at ho'
      injection ho' with he
      subst he
      exact ⟨o, by rw [orders_setOrderIn, lookupA_setA_self], hsc⟩
    · exact ⟨o', by rw [orders_setOrderIn, lookupA_setA_ne _ _ _ _ h]; exact ho',
        sameCore_refl o'⟩
  · intro hn
    by_cases h : id = k
    · subst h
      rw [hk] at hn
      cases hn
    · rw [orders_setOrderIn, lookupA_setA_ne _ _ _ _ h]
      exact hn

theorem lookupA_regPres {st st' : EngineState} (hp : RegPres st st') (id : OrderId)
    (o : Order) (h : lookupA st.orders id = some o) :
    ∃ o', lookupA st'.orders id = some o' ∧ SameCore o o' :=
  (hp id).1 o h

theorem tradeOK_mono {st st' : EngineState} (sd : Side) (t : Trade)
    (hp : RegPres st st') (h : tradeOK st sd t) : tradeOK st' sd t := by
  obtain ⟨h1, h2, h3, h4⟩ := h
  refine ⟨?_, ?_, ?_, ?_⟩
  · intro b hb htype
    cases hcase : lookupA st.orders t.buyOrderId with
    | none =>
      rw [(hp t.buyOrderId).2 hcase] at hb
      cases hb
    | some b0 =>
      obtain ⟨b', hb', hc'⟩ := (hp t.buyOrderId).1 b0 hcase
      rw [hb'] at hb
      injection hb with he
      subst he
      obtain ⟨_, _, _, _, c5, _, c7, _⟩ := hc'
      rw [c7]
      exact h1 b0 hcase (by rw [← c5]; exact htype)
  · intro s hs htype
    cases hcase : lookupA st.orders t.sellOrderId with
    | none =>
      rw [(hp t.sellOrderId).2 hcase] at hs
      cases hs
    | some s0 =>
      obtain ⟨s', hs', hc'⟩ := (hp t.sellOrderId).1 s0 hcase
      rw [hs'] at hs
      injection hs with he
      subst he
      obtain ⟨_, _, _, _, c5, _, c7, _⟩ := hc'
      rw [c7]
      exact h2 s0 hcase (by rw [← c5]; exact htype)
  · intro hsd s hs
    cases hcase : lookupA st.orders t.sellOrderId with
    | none =>
      rw [(hp t.sellOrderId).2 hcase] at hs
      cases hs
    | some s0 =>
      obtain ⟨s', hs', hc'⟩ := (hp t.sellOrderId).1 s0 hcase
      rw [hs'] at hs
      injection hs with he
      subst he
      obtain ⟨_, _, _, _, _, _, c7, _⟩ := hc'
      rw [c7]
      exact h3 hsd s0 hcase
  · intro hsd b hb
    cases hcase : lookupA st.orders t.buyOrderId with
    | none =>
      rw [(hp t.buyOrderId).2 hcase] at hb
      cases hb
    | some b0 =>
      obtain ⟨b', hb', hc'⟩ := (hp t.buyOrderId).1 b0 hcase
      rw [hb'] at hb
      injection hb with he
      subst he
      obtain ⟨_, _, _, _, _, _, c7, _⟩ := hc'
      rw [c7]
      exact h4 hsd b0 hcase

theorem sameCore_symm {a b : Order} (h : SameCore a b) : SameCore b a := by
  obtain ⟨x1, x2, x3, x4, x5, x6, x7, x8⟩ := h
  exact ⟨x1.symm, x2.symm, x3.symm, x4.symm, x5.symm, x6.symm, x7.symm, x8.symm⟩

theorem sameCore_update {counter c0 : Order} (hsc : SameCore counter c0) (f : Quantity)
    (s : OrderStatus) :
    SameCore c0 { counter with filledQuantity := f, status := s } := by
  obtain ⟨x1, x2, x3, x4, x5, x6, x7, x8⟩ := hsc
  exact ⟨x1.symm, x2.symm, x3.symm, x4.symm, x5.symm, x6.symm, x7.symm, x8.symm⟩

/-! ## counterUpdate lemmas -/

theorem counterUpdate_orders_ne (st : EngineState) (order counter : Order) (tq : Quantity)
    (k : OrderId) (hk : k ≠ counter.orderId) :
    lookupA (counterUpdate st order counter tq).orders k = lookupA st.orders k := by
  unfold counterUpdate
  split
  · rw [orders_bookRemoveOrder, orders_setOrderIn, lookupA_setA_ne _ _ _ _ hk]
  · rw [orders_setOrderIn, lookupA_setA_ne _ _ _ _ hk]

theorem counterUpdate_orders_self (st : EngineState) (order counter : Order)
    (tq : Quantity) :
    ∃ rec, lookupA (counterUpdate st order counter tq).orders counter.orderId = some rec ∧
      rec.price = counter.price ∧ rec.type = counter.type ∧
      rec.filledQuantity = counter.filledQuantity + tq := by
  unfold counterUpdate
  split
  · exact ⟨{ counter with filledQuantity := counter.filledQuantity + tq, status := OrderStatus.FILLED },
      by rw [orders_bookRemoveOrder, orders_setOrderIn, lookupA_setA_self],
      rfl, rfl, rfl⟩
  · exact ⟨{ counter with filledQuantity := counter.filledQuantity + tq, status := OrderStatus.PARTIALLY_FILLED },
      by rw [orders_setOrderIn, lookupA_setA_self], rfl, rfl, rfl⟩

theorem counterUpdate_coherent {st : EngineState} (hc : Coherent st)
    (order counter : Order) (tq : Quantity) :
    Coherent (counterUpdate st order counter tq) := by
  unfold counterUpdate
  split
  · exact coherent_of_orders_eq (orders_bookRemoveOrder _ _ _ _)
      (coherent_setOrderIn hc _ _ rfl)
  · exact coherent_setOrderIn hc _ _ rfl

theorem counterUpdate_filledLE {st : EngineState} (hf : FilledLE st)
    (order counter : Order) (tq : Quantity)
    (hle : counter.filledQuantity + tq ≤ counter.quantity) :
    FilledLE (counterUpdate st order counter tq) := by
  unfold counterUpdate
  split
  · exact filledLE_of_orders_eq (orders_bookRemoveOrder _ _ _ _)
      (filledLE_setOrderIn hf _ _ hle)
  · exact filledLE_setOrderIn hf _ _ hle

theorem counterUpdate_regPres {st : EngineState} (order counter : Order) (tq : Quantity)
    (c0 : Order) (hc0 : lookupA st.orders counter.orderId = some c0)
    (hsc : SameCore counter c0) :
    RegPres st (counterUpdate st order counter tq) := by
  unfold counterUpdate
  split
  · exact regPres_trans
      (regPres_setOrderIn _ c0 _ hc0 (sameCore_update hsc _ _))
      (regPres_of_orders_eq (orders_bookRemoveOrder _ _ _ _))
  · exact regPres_setOrderIn _ c0 _ hc0 (sameCore_update hsc _ _)

theorem counterUpdate_emitted (st : EngineState) (order counter : Order) (tq : Quantity) :
    (counterUpdate st order counter tq).emittedTrades = st.emittedTrades := by
  unfold counterUpdate
  split
  · rw [emittedTrades_bookRemoveOrder, emittedTrades_setOrderIn]
  · rw [emittedTrades_setOrderIn]

theorem counterUpdate_bookHasId (st : EngineState) (order counter : Order) (tq : Quantity)
    (sym : String) (id : OrderId)
    (h : bookHasId (counterUpdate st order counter tq) sym id) : bookHasId st sym id := by
  unfold counterUpdate at h
  split at h
  · have h2 := bookHasId_bookRemoveOrder _ _ _ _ _ _ h
    exact h2
  · exact h

/-! ## The matching-step specification -/

theorem tradeStep_spec (st : EngineState) (oid : OrderId) (order counter : Order)
    (hco : Coherent st) (hfl : FilledLE st)
    (ho : lookupA st.orders oid = some order)
    (hc : lookupA st.orders counter.orderId = some counter)
    (hgb : order.side = Side.BUY → order.type = OrderType.LIMIT →
      counter.price ≤ order.price)
    (hgs : order.side = Side.SELL → order.type = OrderType.LIMIT →
      order.price ≤ counter.price) :
    Coherent (tradeStep st oid order counter).1 ∧
    FilledLE (tradeStep st oid order counter).1 ∧
    RegPres st (tradeStep st oid order counter).1 ∧
    (tradeStep st oid order counter).1.emittedTrades =
      st.emittedTrades ++ [(tradeStep st oid order counter).2] ∧
    tradeOK (tradeStep st oid order counter).1 order.side (tradeStep st oid order counter).2 ∧
    (∀ sym id, bookHasId (tradeStep st oid order counter).1 sym id →
      bookHasId st sym id) := by
  have hfo : order.filledQuantity ≤ order.quantity := hfl _ (lookupA_mem _ _ _ ho)
  have hfc : counter.filledQuantity ≤ counter.quantity := hfl _ (lookupA_mem _ _ _ hc)
  have hoid : order.orderId = oid := hco _ (lookupA_mem _ _ _ ho)
  unfold tradeStep
  dsimp only
  generalize hq : min (order.quantity - order.filledQuantity)
    (counter.quantity - counter.filledQuantity) = tq
  have htq1 : tq ≤ order.quantity - order.filledQuantity := by
    rw [← hq]
    exact Nat.min_le_left _ _
  have htq2 : tq ≤ counter.quantity - counter.filledQuantity := by
    rw [← hq]
    exact Nat.min_le_right _ _
  have hole : order.filledQuantity + tq ≤ order.quantity := by
    have h := (le_tsub_iff_right hfo).mp htq1
    calc order.filledQuantity + tq = tq + order.filledQuantity := Nat.add_comm _ _
    _ ≤ order.quantity := h
  have hcle : counter.filledQuantity + tq ≤ counter.quantity := by
    have h := (le_tsub_iff_right hfc).mp htq2
    calc counter.filledQuantity + tq = tq + counter.filledQuantity := Nat.add_comm _ _
    _ ≤ counter.quantity := h
  generalize hext : executeTrade st (if order.side = Side.BUY then order else counter)
    (if order.side = Side.BUY then counter else order) counter.price tq = ex
  have hords1 : ex.1.orders = st.orders := by
    rw [← hext]
    exact orders_executeTrade _ _ _ _ _
  have hemit1 : ex.1.emittedTrades = st.emittedTrades := by
    rw [← hext]
    exact emittedTrades_executeTrade _ _ _ _ _
  have hbook1 : ∀ sym id, bookHasId ex.1 sym id ↔ bookHasId st sym id := by
    rw [← hext]
    exact fun sym id => bookHasId_executeTrade _ _ _ _ _ _ _
  have ht : ex.2 = { tradeId := st.nextTradeId, buyOrderId := (if order.side = Side.BUY then order else counter).orderId, sellOrderId := (if order.side = Side.BUY then counter else order).orderId, buyUserId := (if order.side = Side.BUY then order else counter).userId, sellUserId := (if order.side = Side.BUY then counter else order).userId, symbol := (if order.side = Side.BUY then order else counter).symbol, price := counter.price, quantity := tq } := by
    rw [← hext]
    exact trade_executeTrade _ _ _ _ _
  have ho1 : lookupA ex.1.orders oid = some order := by
    rw [hords1]
    exact ho
  have hcoh2 : Coherent (setOrderIn ex.1 oid
      { order with filledQuantity := order.filledQuantity + tq }) :=
    coherent_setOrderIn (coherent_of_orders_eq hords1 hco) _ _ hoid
  have hfl2 : FilledLE (setOrderIn ex.1 oid
      { order with filledQuantity := order.filledQuantity + tq }) :=
    filledLE_setOrderIn (filledLE_of_orders_eq hords1 hfl) _ _ hole
  have hrp2 : RegPres st (setOrderIn ex.1 oid
      { order with filledQuantity := order.filledQuantity + tq }) :=
    regPres_trans (regPres_of_orders_eq hords1)
      (regPres_setOrderIn _ order _ ho1 ⟨rfl, rfl, rfl, rfl, rfl, rfl, rfl, rfl⟩)
  have hc2 : ∃ c0, lookupA (setOrderIn ex.1 oid
      { order with filledQuantity := order.filledQuantity + tq }).orders counter.orderId
        = some c0 ∧ SameCore counter c0 := by
    by_cases hali : counter.orderId = oid
    · have hoc : counter = order := by
        rw [hali] at hc
        exact Option.some.inj (hc.symm.trans ho)
      refine ⟨{ order with filledQuantity := order.filledQuantity + tq }, ?_, ?_⟩
      · rw [orders_setOrderIn, hali, lookupA_setA_self]
      · rw [hoc]
        exact ⟨rfl, rfl, rfl, rfl, rfl, rfl, rfl, rfl⟩
    · refine ⟨counter, ?_, sameCore_refl _⟩
      rw [orders_setOrderIn, lookupA_setA_ne _ _ _ _ hali, hords1]
      exact hc
  obtain ⟨c0, hc0, hscc0⟩ := hc2
  have hemit2 : (setOrderIn ex.1 oid
      { order with filledQuantity := order.filledQuantity + tq }).emittedTrades
      = st.emittedTrades := by
    rw [emittedTrades_setOrderIn, hemit1]
  generalize hst2 : setOrderIn ex.1 oid
    { order with filledQuantity := order.filledQuantity + tq } = st2
  rw [hst2] at hcoh2 hfl2 hrp2 hc0 hemit2
  have hrpc : RegPres st2 (counterUpdate st2 order counter tq) :=
    counterUpdate_regPres _ _ _ c0 hc0 hscc0
  have hcohc : Coherent (counterUpdate st2 order counter tq) :=
    counterUpdate_coherent hcoh2 order counter tq
  have hflc : FilledLE (counterUpdate st2 order counter tq) :=
    counterUpdate_filledLE hfl2 order counter tq hcle
  have hrp : RegPres st (counterUpdate st2 order counter tq) := regPres_trans hrp2 hrpc
  obtain ⟨rec, hrec, hrecp, hrect, hrecf⟩ := counterUpdate_orders_self st2 order counter tq
  have hemitc : (counterUpdate st2 order counter tq).emittedTrades = st.emittedTrades := by
    rw [counterUpdate_emitted, hemit2]
  have hlookoid : counter.orderId ≠ oid →
      lookupA (counterUpdate st2 order counter tq).orders oid =
        some { order with filledQuantity := order.filledQuantity + tq } := by
    intro hali
    rw [counterUpdate_orders_ne _ _ _ _ _ (fun he => hali he.symm), ← hst2,
      orders_setOrderIn, lookupA_setA_self]
  generalize hstc : counterUpdate st2 order counter tq = stc
  rw [hstc] at hrpc hcohc hflc hrp hrec hemitc hlookoid
  refine ⟨?_, ?_, ?_, ?_, ?_, ?_⟩
  · exact coherent_of_orders_eq (orders_emitTrade _ _) hcohc
  · exact filledLE_of_orders_eq (orders_emitTrade _ _) hflc
  · exact regPres_trans hrp (regPres_of_orders_eq (orders_emitTrade _ _))
  · rw [emittedTrades_emitTrade, hemitc]
  · -- the maker-price / limit-price discipline of the emitted trade
    have hordse : (emitTrade stc ex.2).orders = stc.orders := orders_emitTrade _ _
    cases hside : order.side with
    | BUY =>
      rw [if_pos hside, if_pos hside] at ht
      unfold tradeOK
      rw [hordse, ht]
      dsimp only
      refine ⟨?_, ?_, ?_, ?_⟩
      · intro b hb htypeb
        by_cases hali : counter.orderId = oid
        · rw [hoid, ← hali, hrec] at hb
          injection hb with hbe
          subst hbe
          exact le_of_eq hrecp.symm
        · rw [hoid, hlookoid hali] at hb
          injection hb with hbe
          subst hbe
          exact hgb hside htypeb
      · intro s hs htypes
        rw [hrec] at hs
        injection hs with hse
        subst hse
        exact le_of_eq hrecp
      · intro _ s hs
        rw [hrec] at hs
        injection hs with hse
        subst hse
        exact hrecp
      · intro hcontra
        exact absurd hcontra (by decide)
    | SELL =>
      have hnb : ¬ (order.side = Side.BUY) := by
        rw [hside]
        decide
      rw [if_neg hnb, if_neg hnb] at ht
      unfold tradeOK
      rw [hordse, ht]
      dsimp only
      refine ⟨?_, ?_, ?_, ?_⟩
      · intro b hb htypeb
        rw [hrec] at hb
        injection hb with hbe
        subst hbe
        exact le_of_eq hrecp.symm
      · intro s hs htypes
        by_cases hali : counter.orderId = oid
        · rw [hoid, ← hali, hrec] at hs
          injection hs with hse
          subst hse
          exact le_of_eq hrecp
        · rw [hoid, hlookoid hali] at hs
          injection hs with hse
          subst hse
          exact hgs hside htypes
      · intro hcontra
        exact absurd hcontra (by decide)
      · intro _ b hb
        rw [hrec] at hb
        injection hb with hbe
        subst hbe
        exact hrecp
  · intro sym id h
    have h2 : bookHasId stc sym id := h
    rw [← hstc] at h2
    have h3 : bookHasId st2 sym id := counterUpdate_bookHasId _ _ _ _ _ _ h2
    rw [← hst2] at h3
    have h4 : bookHasId ex.1 sym id := h3
    exact (hbook1 sym id).mp h4

/-! ## Emission lemmas: the loops emit exactly the trades they return -/

theorem tradeStep_emitted (st : EngineState) (oid : OrderId) (order counter : Order) :
    (tradeStep st oid order counter).1.emittedTrades =
      st.emittedTrades ++ [(tradeStep st oid order counter).2] := by
  unfold tradeStep
  dsimp only
  rw [emittedTrades_emitTrade, counterUpdate_emitted, emittedTrades_setOrderIn,
    emittedTrades_executeTrade]

theorem matchLimitLoop_emitted (fuel : Nat) : ∀ (st : EngineState) (oid : OrderId),
    (matchLimitLoop fuel st oid).1.emittedTrades =
      st.emittedTrades ++ (matchLimitLoop fuel st oid).2 := by
  induction fuel with
  | zero => intro st oid; simp [matchLimitLoop]
  | succ n ih =>
    intro st oid
    simp only [matchLimitLoop]
    cases hl : lookupA st.orders oid with
    | none => simp
    | some order =>
      dsimp only
      by_cases hfq : order.filledQuantity < order.quantity
      · rw [if_pos hfq]
        cases hlc : limitCounter st order with
        | none => simp
        | some counter =>
          dsimp only
          rw [ih (tradeStep st oid order counter).1 oid, tradeStep_emitted]
          simp
      · rw [if_neg hfq]
        simp

theorem matchMarketLoop_emitted (fuel : Nat) : ∀ (st : EngineState) (oid : OrderId),
    (matchMarketLoop fuel st oid).1.emittedTrades =
      st.emittedTrades ++ (matchMarketLoop fuel st oid).2 := by
  induction fuel with
  | zero => intro st oid; simp [matchMarketLoop]
  | succ n ih =>
    intro st oid
    simp only [matchMarketLoop]
    cases hl : lookupA st.orders oid with
    | none => simp
    | some order =>
      dsimp only
      by_cases hfq : order.filledQuantity < order.quantity
      · rw [if_pos hfq]
        cases hlc : marketCounter st order with
        | none => simp
        | some counter =>
          dsimp only
          rw [ih (tradeStep st oid order counter).1 oid, tradeStep_emitted]
          simp
      · rw [if_neg hfq]
        simp

theorem matchLimitOrder_emitted (fuel : Nat) (st : EngineState) (oid : OrderId) :
    (matchLimitOrder fuel st oid).1.emittedTrades =
      st.emittedTrades ++ (matchLimitOrder fuel st oid).2 := by
  unfold matchLimitOrder
  dsimp only
  split
  · exact matchLimitLoop_emitted fuel st oid
  · rw [emittedTrades_setOrderIn]
    exact matchLimitLoop_emitted fuel st oid

theorem matchMarketOrder_emitted (fuel : Nat) (st : EngineState) (oid : OrderId) :
    (matchMarketOrder fuel st oid).1.emittedTrades =
      st.emittedTrades ++ (matchMarketOrder fuel st oid).2 := by
  unfold matchMarketOrder
  dsimp only
  split
  · exact matchMarketLoop_emitted fuel st oid
  · rw [emittedTrades_setOrderIn]
    exact matchMarketLoop_emitted fuel st oid

/-! ## Counterparty-selection lemmas -/

theorem getBestAskOrder_lookup {st : EngineState} (hco : Coherent st) (book : OrderBook)
    (c : Order) (h : getBestAskOrder st book = some c) :
    lookupA st.orders c.orderId = some c := by
  unfold getBestAskOrder at h
  cases hb : book.askLevels with
  | nil =>
    rw [hb] at h
    simp at h
  | cons hdp rest =>
    rw [hb] at h
    rcases hdp with ⟨p, lvl⟩
    dsimp only at h
    cases hlo : lvl.orders with
    | nil =>
      rw [hlo] at h
      simp at h
    | cons oid0 os =>
      rw [hlo] at h
      dsimp only at h
      have hid : c.orderId = oid0 := hco _ (lookupA_mem _ _ _ h)
      rw [hid]
      exact h

theorem getBestBidOrder_lookup {st : EngineState} (hco : Coherent st) (book : OrderBook)
    (c : Order) (h : getBestBidOrder st book = some c) :
    lookupA st.orders c.orderId = some c := by
  unfold getBestBidOrder at h
  cases hb : book.bidLevels with
  | nil =>
    rw [hb] at h
    simp at h
  | cons hdp rest =>
    rw [hb] at h
    rcases hdp with ⟨p, lvl⟩
    dsimp only at h
    cases hlo : lvl.orders with
    | nil =>
      rw [hlo] at h
      simp at h
    | cons oid0 os =>
      rw [hlo] at h
      dsimp only at h
      have hid : c.orderId = oid0 := hco _ (lookupA_mem _ _ _ h)
      rw [hid]
      exact h

theorem limitCounter_lookup {st : EngineState} (hco : Coherent st) (order counter : Order)
    (h : limitCounter st order = some counter) :
    lookupA st.orders counter.orderId = some counter := by
  unfold limitCounter at h
  by_cases hs : order.side = Side.BUY
  · rw [if_pos hs] at h
    cases hba : getBestAskOrder st (getBook st order.symbol) with
    | none =>
      rw [hba] at h
      simp at h
    | some c =>
      rw [hba] at h
      dsimp only at h
      by_cases hp : c.price > order.price
      · rw [if_pos hp] at h
        simp at h
      · rw [if_neg hp] at h
        injection h with he
        subst he
        exact getBestAskOrder_lookup hco _ _ hba
  · rw [if_neg hs] at h
    cases hbb : getBestBidOrder st (getBook st order.symbol) with
    | none =>
      rw [hbb] at h
      simp at h
    | some c =>
      rw [hbb] at h
      dsimp only at h
      by_cases hp : c.price < order.price
      · rw [if_pos hp] at h
        simp at h
      · rw [if_neg hp] at h
        injection h with he
        subst he
        exact getBestBidOrder_lookup hco _ _ hbb

theorem limitCounter_guard {st : EngineState} (order counter : Order)
    (h : limitCounter st order = some counter) :
    (order.side = Side.BUY → counter.price ≤ order.price) ∧
    (order.side = Side.SELL → order.price ≤ counter.price) := by
  unfold limitCounter at h
  by_cases hs : order.side = Side.BUY
  · rw [if_pos hs] at h
    cases hba : getBestAskOrder st (getBook st order.symbol) with
    | none =>
      rw [hba] at h
      simp at h
    | some c =>
      rw [hba] at h
      dsimp only at h
      by_cases hp : c.price > order.price
      · rw [if_pos hp] at h
        simp at h
      · rw [if_neg hp] at h
        injection h with he
        subst he
        exact ⟨fun _ => not_lt.mp hp,
          fun hsell => absurd (hs.symm.trans hsell) (by decide)⟩
  · rw [if_neg hs] at h
    cases hbb : getBestBidOrder st (getBook st order.symbol) with
    | none =>
      rw [hbb] at h
      simp at h
    | some c =>
      rw [hbb] at h
      dsimp only at h
      by_cases hp : c.price < order.price
      · rw [if_pos hp] at h
        simp at h
      · rw [if_neg hp] at h
        injection h with he
        subst he
        exact ⟨fun hbuy => absurd hbuy hs, fun _ => not_lt.mp hp⟩

theorem marketCounter_lookup {st : EngineState} (hco : Coherent st) (order counter : Order)
    (h : marketCounter st order = some counter) :
    lookupA st.orders counter.orderId = some counter := by
  unfold marketCounter at h
  by_cases hs : order.side = Side.BUY
  · rw [if_pos hs] at h
    exact getBestAskOrder_lookup hco _ _ h
  · rw [if_neg hs] at h
    exact getBestBidOrder_lookup hco _ _ h

/-! ## Matching-loop specifications -/

theorem matchLimitLoop_spec (fuel : Nat) :
    ∀ (st : EngineState) (oid : OrderId) (sd : Side),
    Coherent st → FilledLE st →
    (∀ o, lookupA st.orders oid = some o → o.side = sd) →
    Coherent (matchLimitLoop fuel st oid).1 ∧
    FilledLE (matchLimitLoop fuel st oid).1 ∧
    RegPres st (matchLimitLoop fuel st oid).1 ∧
    (∀ t ∈ (matchLimitLoop fuel st oid).2, tradeOK (matchLimitLoop fuel st oid).1 sd t) ∧
    (∀ sym id, bookHasId (matchLimitLoop fuel st oid).1 sym id → bookHasId st sym id) := by
  induction fuel with
  | zero =>
    intro st oid sd hco hfl hsd
    exact ⟨hco, hfl, regPres_refl st, by simp [matchLimitLoop], fun sym id h => h⟩
  | succ n ih =>
    intro st oid sd hco hfl hsd
    simp only [matchLimitLoop]
    cases hl : lookupA st.orders oid with
    | none => exact ⟨hco, hfl, regPres_refl st, by simp, fun sym id h => h⟩
    | some order =>
      dsimp only
      by_cases hfq : order.filledQuantity < order.quantity
      · rw [if_pos hfq]
        cases hlc : limitCounter st order with
        | none => exact ⟨hco, hfl, regPres_refl st, by simp, fun sym id h => h⟩
        | some counter =>
          dsimp only
          have hcc : lookupA st.orders counter.orderId = some counter :=
            limitCounter_lookup hco order counter hlc
          have hguard := limitCounter_guard order counter hlc
          obtain ⟨s1, s2, s3, s5, s4, s6⟩ := tradeStep_spec st oid order counter hco hfl
            hl hcc (fun hb _ => hguard.1 hb) (fun hs _ => hguard.2 hs)
          have hsd' : ∀ o, lookupA (tradeStep st oid order counter).1.orders oid = some o →
              o.side = sd := by
            intro o' ho'
            obtain ⟨o'', ho'', hc''⟩ := (s3 oid).1 order hl
            rw [ho''] at ho'
            injection ho' with he
            subst he
            obtain ⟨_, _, _, c4, _, _, _, _⟩ := hc''
            rw [c4]
            exact hsd order hl
          obtain ⟨i1, i2, i3, i4, i5⟩ := ih (tradeStep st oid order counter).1 oid sd s1 s2 hsd'
          refine ⟨i1, i2, regPres_trans s3 i3, ?_, ?_⟩
          · intro t ht
            rcases List.mem_cons.mp ht with he | ht'
            · subst he
              have hsdo : order.side = sd := hsd order hl
              have s4' : tradeOK (tradeStep st oid order counter).1 sd
                  (tradeStep st oid order counter).2 := hsdo ▸ s4
              exact tradeOK_mono sd _ i3 s4'
            · exact i4 t ht'
          · intro sym id h
            exact s6 sym id (i5 sym id h)
      · rw [if_neg hfq]
        exact ⟨hco, hfl, regPres_refl st, by simp, fun sym id h => h⟩

theorem matchMarketLoop_spec (fuel : Nat) :
    ∀ (st : EngineState) (oid : OrderId) (sd : Side),
    Coherent st → FilledLE st →
    (∀ o, lookupA st.orders oid = some o → o.side = sd) →
    (∀ o, lookupA st.orders oid = some o → o.type = OrderType.MARKET) →
    Coherent (matchMarketLoop fuel st oid).1 ∧
    FilledLE (matchMarketLoop fuel st oid).1 ∧
    RegPres st (matchMarketLoop fuel st oid).1 ∧
    (∀ t ∈ (matchMarketLoop fuel st oid).2, tradeOK (matchMarketLoop fuel st oid).1 sd t) ∧
    (∀ sym id, bookHasId (matchMarketLoop fuel st oid).1 sym id → bookHasId st sym id) := by
  induction fuel with
  | zero =>
    intro st oid sd hco hfl hsd hmt
    exact ⟨hco, hfl, regPres_refl st, by simp [matchMarketLoop], fun sym id h => h⟩
  | succ n ih =>
    intro st oid sd hco hfl hsd hmt
    simp only [matchMarketLoop]
    cases hl : lookupA st.orders oid with
    | none => exact ⟨hco, hfl, regPres_refl st, by simp, fun sym id h => h⟩
    | some order =>
      dsimp only
      by_cases hfq : order.filledQuantity < order.quantity
      · rw [if_pos hfq]
        cases hlc : marketCounter st order with
        | none => exact ⟨hco, hfl, regPres_refl st, by simp, fun sym id h => h⟩
        | some counter =>
          dsimp only
          have hcc : lookupA st.orders counter.orderId = some counter :=
            marketCounter_lookup hco order counter hlc
          have hmkt : order.type = OrderType.MARKET := hmt order hl
          obtain ⟨s1, s2, s3, s5, s4, s6⟩ := tradeStep_spec st oid order counter hco hfl
            hl hcc (fun _ hlim => absurd (hmkt.symm.trans hlim) (by decide))
            (fun _ hlim => absurd (hmkt.symm.trans hlim) (by decide))
          have hpres : ∀ o, lookupA (tradeStep st oid order counter).1.orders oid = some o →
              o.side = sd ∧ o.type = OrderType.MARKET := by
            intro o' ho'
            obtain ⟨o'', ho'', hc''⟩ := (s3 oid).1 order hl
            rw [ho''] at ho'
            injection ho' with he
            subst he
            obtain ⟨_, _, _, c4, c5, _, _, _⟩ := hc''
            rw [c4, c5]
            exact ⟨hsd order hl, hmt order hl⟩
          obtain ⟨i1, i2, i3, i4, i5⟩ := ih (tradeStep st oid order counter).1 oid sd s1 s2
            (fun o ho => (hpres o ho).1) (fun o ho => (hpres o ho).2)
          refine ⟨i1, i2, regPres_trans s3 i3, ?_, ?_⟩
          · intro t ht
            rcases List.mem_cons.mp ht with he | ht'
            · subst he
              have hsdo : order.side = sd := hsd order hl
              have s4' : tradeOK (tradeStep st oid order counter).1 sd
                  (tradeStep st oid order counter).2 := hsdo ▸ s4
              exact tradeOK_mono sd _ i3 s4'
            · exact i4 t ht'
          · intro sym id h
            exact s6 sym id (i5 sym id h)
      · rw [if_neg hfq]
        exact ⟨hco, hfl, regPres_refl st, by simp, fun sym id h => h⟩

/-! ## Matching-function specifications (loop plus final status update) -/

theorem statusUpdate_spec (st : EngineState) (oid : OrderId) (o o' : Order)
    (h : lookupA st.orders oid = some o) (hco : Coherent st) (hfl : FilledLE st)
    (hsc : SameCore o o') (hfq : o'.filledQuantity = o.filledQuantity) :
    Coherent (setOrderIn st oid o') ∧ FilledLE (setOrderIn st oid o') ∧
    RegPres st (setOrderIn st oid o') := by
  have hid : o'.orderId = oid := by
    rw [hsc.1, hco _ (lookupA_mem _ _ _ h)]
  refine ⟨coherent_setOrderIn hco _ _ hid, ?_, regPres_setOrderIn _ o o' h hsc⟩
  apply filledLE_setOrderIn hfl
  rw [hfq, hsc.2.2.2.2.2.2.2]
  exact hfl _ (lookupA_mem _ _ _ h)

theorem matchLimitOrder_spec (fuel : Nat) (st : EngineState) (oid : OrderId) (sd : Side)
    (hco : Coherent st) (hfl : FilledLE st)
    (hsd : ∀ o, lookupA st.orders oid = some o → o.side = sd) :
    Coherent (matchLimitOrder fuel st oid).1 ∧
    FilledLE (matchLimitOrder fuel st oid).1 ∧
    RegPres st (matchLimitOrder fuel st oid).1 ∧
    (∀ t ∈ (matchLimitOrder fuel st oid).2, tradeOK (matchLimitOrder fuel st oid).1 sd t) ∧
    (∀ sym id, bookHasId (matchLimitOrder fuel st oid).1 sym id → bookHasId st sym id) := by
  obtain ⟨l1, l2, l3, l4, l5⟩ := matchLimitLoop_spec fuel st oid sd hco hfl hsd
  unfold matchLimitOrder
  dsimp only
  split
  · exact ⟨l1, l2, l3, l4, l5⟩
  · rename_i o hl
    have hsc : SameCore o (if o.quantity ≤ o.filledQuantity then
        { o with status := OrderStatus.FILLED }
        else if 0 < o.filledQuantity then { o with status := OrderStatus.PARTIALLY_FILLED }
        else o) := by
      by_cases h1 : o.quantity ≤ o.filledQuantity
      · rw [if_pos h1]
        exact ⟨rfl, rfl, rfl, rfl, rfl, rfl, rfl, rfl⟩
      · rw [if_neg h1]
        by_cases h2 : 0 < o.filledQuantity
        · rw [if_pos h2]
          exact ⟨rfl, rfl, rfl, rfl, rfl, rfl, rfl, rfl⟩
        · rw [if_neg h2]
          exact sameCore_refl o
    have hfq : (if o.quantity ≤ o.filledQuantity then
        { o with status := OrderStatus.FILLED }
        else if 0 < o.filledQuantity then { o with status := OrderStatus.PARTIALLY_FILLED }
        else o).filledQuantity = o.filledQuantity := by
      by_cases h1 : o.quantity ≤ o.filledQuantity
      · rw [if_pos h1]
      · rw [if_neg h1]
        by_cases h2 : 0 < o.filledQuantity
        · rw [if_pos h2]
        · rw [if_neg h2]
    obtain ⟨u1, u2, u3⟩ := statusUpdate_spec (matchLimitLoop fuel st oid).1 oid o _ hl l1 l2
      hsc hfq
    refine ⟨u1, u2, regPres_trans l3 u3, ?_, ?_⟩
    · intro t ht
      exact tradeOK_mono sd t u3 (l4 t ht)
    · intro sym id h
      exact l5 sym id h

theorem matchMarketOrder_spec (fuel : Nat) (st : EngineState) (oid : OrderId) (sd : Side)
    (hco : Coherent st) (hfl : FilledLE st)
    (hsd : ∀ o, lookupA st.orders oid = some o → o.side = sd)
    (hmt : ∀ o, lookupA st.orders oid = some o → o.type = OrderType.MARKET) :
    Coherent (matchMarketOrder fuel st oid).1 ∧
    FilledLE (matchMarketOrder fuel st oid).1 ∧
    RegPres st (matchMarketOrder fuel st oid).1 ∧
    (∀ t ∈ (matchMarketOrder fuel st oid).2, tradeOK (matchMarketOrder fuel st oid).1 sd t) ∧
    (∀ sym id, bookHasId (matchMarketOrder fuel st oid).1 sym id → bookHasId st sym id) := by
  obtain ⟨l1, l2, l3, l4, l5⟩ := matchMarketLoop_spec fuel st oid sd hco hfl hsd hmt
  unfold matchMarketOrder
  dsimp only
  split
  · exact ⟨l1, l2, l3, l4, l5⟩
  · rename_i o hl
    have hsc : SameCore o (if o.quantity ≤ o.filledQuantity then
        { o with status := OrderStatus.FILLED }
        else if 0 < o.filledQuantity then { o with status := OrderStatus.PARTIALLY_FILLED }
        else { o with status := OrderStatus.CANCELLED }) := by
      by_cases h1 : o.quantity ≤ o.filledQuantity
      · rw [if_pos h1]
        exact ⟨rfl, rfl, rfl, rfl, rfl, rfl, rfl, rfl⟩
      · rw [if_neg h1]
        by_cases h2 : 0 < o.filledQuantity
        · rw [if_pos h2]
          exact ⟨rfl, rfl, rfl, rfl, rfl, rfl, rfl, rfl⟩
        · rw [if_neg h2]
          exact ⟨rfl, rfl, rfl, rfl, rfl, rfl, rfl, rfl⟩
    have hfq : (if o.quantity ≤ o.filledQuantity then
        { o with status := OrderStatus.FILLED }
        else if 0 < o.filledQuantity then { o with status := OrderStatus.PARTIALLY_FILLED }
        else { o with status := OrderStatus.CANCELLED }).filledQuantity
        = o.filledQuantity := by
      by_cases h1 : o.quantity ≤ o.filledQuantity
      · rw [if_pos h1]
      · rw [if_neg h1]
        by_cases h2 : 0 < o.filledQuantity
        · rw [if_pos h2]
        · rw [if_neg h2]
    obtain ⟨u1, u2, u3⟩ := statusUpdate_spec (matchMarketLoop fuel st oid).1 oid o _ hl l1 l2
      hsc hfq
    refine ⟨u1, u2, regPres_trans l3 u3, ?_, ?_⟩
    · intro t ht
      exact tradeOK_mono sd t u3 (l4 t ht)
    · intro sym id h
      exact l5 sym id h

/-! ## Post-match phase lemmas -/

theorem iocBranch_spec (st : EngineState) (oid : OrderId) (o o' : Order) (SB : EngineState)
    (hords : SB.orders = st.orders) (hem : SB.emittedTrades = st.emittedTrades)
    (hbk : SB.books = st.books)
    (hl : lookupA st.orders oid = some o) (hco : Coherent st) (hfl : FilledLE st)
    (hsc : SameCore o o') (hfq : o'.filledQuantity = o.filledQuantity) :
    Coherent (setOrderIn SB oid o') ∧ FilledLE (setOrderIn SB oid o') ∧
    RegPres st (setOrderIn SB oid o') ∧
    (setOrderIn SB oid o').emittedTrades = st.emittedTrades ∧
    (setOrderIn SB oid o').books = st.books := by
  obtain ⟨u1, u2, u3⟩ := statusUpdate_spec SB oid o o' (by rw [hords]; exact hl)
    (coherent_of_orders_eq hords hco) (filledLE_of_orders_eq hords hfl) hsc hfq
  refine ⟨u1, u2, regPres_trans (regPres_of_orders_eq hords) u3, ?_, ?_⟩
  · rw [emittedTrades_setOrderIn, hem]
  · rw [books_setOrderIn, hbk]

theorem handleIOC_pres (st : EngineState) (oid : OrderId) (hco : Coherent st)
    (hfl : FilledLE st) :
    Coherent (handleIOC st oid) ∧ FilledLE (handleIOC st oid) ∧
    RegPres st (handleIOC st oid) ∧
    (handleIOC st oid).emittedTrades = st.emittedTrades ∧
    (handleIOC st oid).books = st.books := by
  unfold handleIOC
  cases hl : lookupA st.orders oid with
  | none => exact ⟨hco, hfl, regPres_refl st, rfl, rfl⟩
  | some o =>
    dsimp only
    by_cases hfq : o.filledQuantity < o.quantity
    · rw [if_pos hfq]
      by_cases hbs : o.side = Side.BUY
      · rw [if_pos hbs]
        by_cases h0 : o.filledQuantity = 0
        · rw [if_pos h0]
          exact iocBranch_spec st oid o _ _ rfl rfl rfl hl hco hfl
            ⟨rfl, rfl, rfl, rfl, rfl, rfl, rfl, rfl⟩ rfl
        · rw [if_neg h0]
          exact iocBranch_spec st oid o _ _ rfl rfl rfl hl hco hfl
            ⟨rfl, rfl, rfl, rfl, rfl, rfl, rfl, rfl⟩ rfl
      · rw [if_neg hbs]
        by_cases h0 : o.filledQuantity = 0
        · rw [if_pos h0]
          exact iocBranch_spec st oid o _ _ rfl rfl rfl hl hco hfl
            ⟨rfl, rfl, rfl, rfl, rfl, rfl, rfl, rfl⟩ rfl
        · rw [if_neg h0]
          exact iocBranch_spec st oid o _ _ rfl rfl rfl hl hco hfl
            ⟨rfl, rfl, rfl, rfl, rfl, rfl, rfl, rfl⟩ rfl
    · rw [if_neg hfq]
      exact ⟨hco, hfl, regPres_refl st, rfl, rfl⟩

theorem handleFOK_state (st : EngineState) (oid : OrderId) :
    (handleFOK st oid).2.orders = st.orders ∧
    (handleFOK st oid).2.emittedTrades = st.emittedTrades ∧
    (handleFOK st oid).2.books = st.books := by
  unfold handleFOK
  cases hl : lookupA st.orders oid with
  | none => exact ⟨rfl, rfl, rfl⟩
  | some o =>
    dsimp only
    by_cases hcf : canFillCompletely o (getBook st o.symbol) = true
    · rw [if_pos hcf]
      exact ⟨rfl, rfl, rfl⟩
    · rw [if_neg hcf]
      by_cases hbs : o.side = Side.BUY
      · rw [if_pos hbs]
        exact ⟨rfl, rfl, rfl⟩
      · rw [if_neg hbs]
        exact ⟨rfl, rfl, rfl⟩

theorem orders_bookAddOrder (st : EngineState) (o : Order) :
    (bookAddOrder st o).orders = st.orders := by
  unfold bookAddOrder
  dsimp only
  by_cases hbs : o.side = Side.BUY
  · rw [if_pos hbs]
    simp [setBook, orders_ensureBook]
  · rw [if_neg hbs]
    simp [setBook, orders_ensureBook]

theorem emittedTrades_bookAddOrder (st : EngineState) (o : Order) :
    (bookAddOrder st o).emittedTrades = st.emittedTrades := by
  unfold bookAddOrder
  dsimp only
  by_cases hbs : o.side = Side.BUY
  · rw [if_pos hbs]
    simp [setBook, emittedTrades_ensureBook]
  · rw [if_neg hbs]
    simp [setBook, emittedTrades_ensureBook]

theorem restGFD_state (st : EngineState) (oid : OrderId) :
    (restGFD st oid).orders = st.orders ∧
    (restGFD st oid).emittedTrades = st.emittedTrades := by
  unfold restGFD
  cases hl : lookupA st.orders oid with
  | none => exact ⟨rfl, rfl⟩
  | some o =>
    dsimp only
    split
    · exact ⟨orders_bookAddOrder st o, emittedTrades_bookAddOrder st o⟩
    · exact ⟨rfl, rfl⟩

theorem restGFD_of_ioc (st : EngineState) (oid : OrderId) (o : Order)
    (hl : lookupA st.orders oid = some o) (htif : o.timeInForce = TimeInForce.IOC) :
    restGFD st oid = st := by
  have hnc : ¬ (o.timeInForce = TimeInForce.GFD ∧ o.type = OrderType.LIMIT ∧
      o.filledQuantity < o.quantity ∧ o.status ≠ OrderStatus.CANCELLED) := by
    intro hand
    exact absurd (htif.symm.trans hand.1) (by decide)
  unfold restGFD
  rw [hl]
  dsimp only
  rw [if_neg hnc]

theorem processPost_spec (st0 : EngineState) (r : EngineState × List Trade) (oid : OrderId)
    (sd : Side) (hco : Coherent r.1) (hfl : FilledLE r.1)
    (hemit : r.1.emittedTrades = st0.emittedTrades ++ r.2)
    (hok : ∀ t ∈ r.2, tradeOK r.1 sd t) :
    (processPost r oid).1.emittedTrades = st0.emittedTrades ++ r.2 ∧
    (∀ t ∈ r.2, tradeOK (processPost r oid).1 sd t) := by
  unfold processPost
  cases hl : lookupA r.1.orders oid with
  | none => exact ⟨hemit, hok⟩
  | some o1 =>
    dsimp only
    by_cases hioc : o1.timeInForce = TimeInForce.IOC
    · rw [if_pos hioc]
      obtain ⟨p1, p2, p3, p4, p5⟩ := handleIOC_pres r.1 oid hco hfl
      obtain ⟨q1, q2⟩ := restGFD_state (handleIOC r.1 oid) oid
      refine ⟨?_, ?_⟩
      · dsimp only
        rw [q2, p4, hemit]
      · intro t ht
        have rp : RegPres r.1 (restGFD (handleIOC r.1 oid) oid) :=
          regPres_trans p3 (regPres_of_orders_eq q1)
        exact tradeOK_mono sd t rp (hok t ht)
    · rw [if_neg hioc]
      by_cases hfok : o1.timeInForce = TimeInForce.FOK
      · rw [if_pos hfok]
        obtain ⟨f1, f2, f3⟩ := handleFOK_state r.1 oid
        by_cases hfb : (handleFOK r.1 oid).1 = true
        · rw [if_pos hfb]
          obtain ⟨q1, q2⟩ := restGFD_state (handleFOK r.1 oid).2 oid
          refine ⟨?_, ?_⟩
          · dsimp only
            rw [q2, f2, hemit]
          · intro t ht
            have rp : RegPres r.1 (restGFD (handleFOK r.1 oid).2 oid) :=
              regPres_trans (regPres_of_orders_eq f1) (regPres_of_orders_eq q1)
            exact tradeOK_mono sd t rp (hok t ht)
        · rw [if_neg hfb]
          refine ⟨?_, ?_⟩
          · dsimp only
            rw [emittedTrades_setOrderIn, f2, hemit]
          · intro t ht
            have hl2 : lookupA (handleFOK r.1 oid).2.orders oid = some o1 := by
              rw [f1]
              exact hl
            have rp : RegPres r.1 (setOrderIn (handleFOK r.1 oid).2 oid
                { o1 with status := OrderStatus.CANCELLED }) :=
              regPres_trans (regPres_of_orders_eq f1)
                (regPres_setOrderIn _ o1 _ hl2 ⟨rfl, rfl, rfl, rfl, rfl, rfl, rfl, rfl⟩)
            exact tradeOK_mono sd t rp (hok t ht)
      · rw [if_neg hfok]
        obtain ⟨q1, q2⟩ := restGFD_state r.1 oid
        refine ⟨?_, ?_⟩
        · dsimp only
          rw [q2, hemit]
        · intro t ht
          exact tradeOK_mono sd t (regPres_of_orders_eq q1) (hok t ht)

theorem bookHasId_ensureBook (st : EngineState) (sym' sym : String) (id : OrderId) :
    bookHasId (ensureBook st sym') sym id ↔ bookHasId st sym id := by
  rw [bookHasId, bookHasId, getBook_ensureBook]

theorem bookHasId_of_books_eq {st st' : EngineState} (h : st'.books = st.books)
    (sym : String) (id : OrderId) : bookHasId st' sym id ↔ bookHasId st sym id := by
  unfold bookHasId getBook
  rw [h]

/-! ## Claim theorem: maker-price discipline (C5) -/

/-- C5: every fill produced by the matching loops executes at the resting
(maker) order's price: for each trade the engine emits while processing an
incoming order, a LIMIT buy participant's limit price is at least the trade
price, a LIMIT sell participant's limit price is at most the trade price, and
the counterparty opposite the incoming order traded exactly at its own resting
price (all read off the final registry, whose price fields the engine never
mutates). -/
theorem c5_maker_price (fuel : Nat) (st : EngineState) (oid : OrderId) (o : Order)
    (hco : Coherent st) (hfl : FilledLE st) (ho : lookupA st.orders oid = some o) :
    ∃ ts, (processOrder fuel st oid).1.emittedTrades = st.emittedTrades ++ ts ∧
      ∀ t ∈ ts, tradeOK (processOrder fuel st oid).1 o.side t := by
  unfold processOrder
  rw [ho]
  dsimp only
  have hords0 : (ensureBook st o.symbol).orders = st.orders := orders_ensureBook _ _
  have hco0 : Coherent (ensureBook st o.symbol) := coherent_of_orders_eq hords0 hco
  have hfl0 : FilledLE (ensureBook st o.symbol) := filledLE_of_orders_eq hords0 hfl
  have ho0 : lookupA (ensureBook st o.symbol).orders oid = some o := by
    rw [hords0]
    exact ho
  have hemit0 : (ensureBook st o.symbol).emittedTrades = st.emittedTrades :=
    emittedTrades_ensureBook _ _
  have hsd0 : ∀ o1, lookupA (ensureBook st o.symbol).orders oid = some o1 →
      o1.side = o.side := by
    intro o1 h1
    rw [ho0] at h1
    injection h1 with he
    rw [← he]
  by_cases htl : o.type = OrderType.LIMIT
  · rw [if_pos htl]
    obtain ⟨m1, m2, m3, m4, m5⟩ := matchLimitOrder_spec fuel (ensureBook st o.symbol) oid
      o.side hco0 hfl0 hsd0
    have hemitm : (matchLimitOrder fuel (ensureBook st o.symbol) oid).1.emittedTrades =
        st.emittedTrades ++ (matchLimitOrder fuel (ensureBook st o.symbol) oid).2 := by
      rw [matchLimitOrder_emitted, hemit0]
    obtain ⟨e1, e2⟩ := processPost_spec st (matchLimitOrder fuel (ensureBook st o.symbol) oid)
      oid o.side m1 m2 hemitm m4
    exact ⟨_, e1, e2⟩
  · rw [if_neg htl]
    have hmt0 : ∀ o1, lookupA (ensureBook st o.symbol).orders oid = some o1 →
        o1.type = OrderType.MARKET := by
      intro o1 h1
      rw [ho0] at h1
      injection h1 with he
      rw [← he]
      cases hot : o.type with
      | LIMIT => exact absurd hot htl
      | MARKET => rfl
    obtain ⟨m1, m2, m3, m4, m5⟩ := matchMarketOrder_spec fuel (ensureBook st o.symbol) oid
      o.side hco0 hfl0 hsd0 hmt0
    have hemitm : (matchMarketOrder fuel (ensureBook st o.symbol) oid).1.emittedTrades =
        st.emittedTrades ++ (matchMarketOrder fuel (ensureBook st o.symbol) oid).2 := by
      rw [matchMarketOrder_emitted, hemit0]
    obtain ⟨e1, e2⟩ := processPost_spec st (matchMarketOrder fuel (ensureBook st o.symbol) oid)
      oid o.side m1 m2 hemitm m4
    exact ⟨_, e1, e2⟩

/-- C5 witness: the simple-cross incoming buy, processed from the concrete
pre-state `c5pre`. -/
theorem c5_maker_price_witness :
    (Coherent c5pre ∧ FilledLE c5pre ∧ lookupA c5pre.orders 2 = some c5buy) ∧
    (∃ ts, (processOrder 10 c5pre 2).1.emittedTrades = c5pre.emittedTrades ++ ts ∧
      ∀ t ∈ ts, tradeOK (processOrder 10 c5pre 2).1 c5buy.side t) :=
  ⟨⟨by decide, by decide, by decide⟩,
   c5_maker_price 10 c5pre 2 c5buy (by decide) (by decide) (by decide)⟩

/-! ## Claim theorems: scenario evaluations -/

/-- C1: in the simple-cross scenario (users 1 and 2 seeded with 1,000,000,
user 2 sells LIMIT GFD 10000 qty 5, user 1 buys LIMIT GFD 10500 qty 5) the
engine produces exactly one trade at price 10000 quantity 5 and both orders
end FILLED, but user 1's available balance ends at 900,000, not the claimed
950,000: `executeTrade` burns the actual cost out of the buyer's locked funds
via `completeTrade` and then debits the buyer's available balance again via
`transferFunds`.  User 2 ends at 1,050,000 as claimed. -/
theorem c1_simple_cross_double_debit :
    c1fin.emittedTrades =
      [{ tradeId := 1, buyOrderId := 2, sellOrderId := 1, buyUserId := 1,
         sellUserId := 2, symbol := "X", price := 10000, quantity := 5 }] ∧
    (lookupA c1fin.orders 1).map Order.status = some OrderStatus.FILLED ∧
    (lookupA c1fin.orders 2).map Order.status = some OrderStatus.FILLED ∧
    getOrCreateBalance c1fin.balances 1 =
      { userId := 1, availableBalance := 900000, lockedBalance := 0 } ∧
    (getOrCreateBalance c1fin.balances 1).availableBalance ≠ 950000 ∧
    getOrCreateBalance c1fin.balances 2 =
      { userId := 2, availableBalance := 1050000, lockedBalance := 0 } := by
  refine ⟨by decide, by decide, by decide, by decide, by decide, by decide⟩

/-- C2: the FOK completeness check runs only after the matching loop, so with
a resting `SELL LIMIT GFD 10000 qty 3` an incoming `BUY LIMIT FOK 10000 qty
10` first executes one trade of quantity 3 (emitted to the trade callback),
consumes the resting sell, and only then is cancelled; the post-hoc
`unlockFunds(price*quantity)` fails (the buyer's locked balance is already
down to 70,000 < 100,000), leaving 70,000 locked instead of the claimed 0. -/
theorem c2_fok_checked_after_matching :
    c2fin.emittedTrades.length = 1 ∧
    c2fin.emittedTrades.map Trade.quantity = [3] ∧
    (lookupA c2fin.orders 2).map Order.status = some OrderStatus.CANCELLED ∧
    (getBook c2mid "X").askLevels =
      [(10000, { price := 10000, totalQuantity := 3, orders := [1] })] ∧
    (getBook c2fin "X").askLevels = [] ∧
    (getOrCreateBalance c2fin.balances 1).lockedBalance = 70000 := by
  refine ⟨by decide, by decide, by decide, by decide, by decide, by decide⟩

/-- C3: the price-level aggregate is not maintained when the front order of a
level is partially filled by a match (and `removeOrder` of a fully filled
order subtracts its now-zero unfilled quantity).  After a resting `SELL LIMIT
GFD 10000 qty 10` is hit by `BUY LIMIT GFD 10000 qty 4`, the surviving ask
level reports `totalQuantity = 10` while the sum of `quantity -
filledQuantity` over its orders is 6. -/
theorem c3_level_aggregate_stale :
    (getBook c3fin "X").askLevels =
      [(10000, { price := 10000, totalQuantity := 10, orders := [1] })] ∧
    levelSumUnfilled c3fin { price := 10000, totalQuantity := 10, orders := [1] } = 6 ∧
    (10 : Nat) ≠ 6 := by
  refine ⟨by decide, by decide, by decide⟩

/-- C4: a FILLED order can transition to CANCELLED.  With a resting `SELL
LIMIT GFD 10000 qty 5`, an incoming `BUY LIMIT FOK 10000 qty 5` is fully
filled by the matching phase of `processOrder` (status FILLED), after which
the FOK completeness re-check walks the now-empty book, fails, and
`processOrder` overwrites the terminal FILLED status with CANCELLED. -/
theorem c4_filled_transitions_to_cancelled :
    (lookupA (matchLimitOrder 10 (ensureBook c4pre "X") 2).1.orders 2).map Order.status =
      some OrderStatus.FILLED ∧
    (lookupA (processOrder 10 c4pre 2).1.orders 2).map Order.status =
      some OrderStatus.CANCELLED := by
  refine ⟨by decide, by decide⟩

/-- C6 counterexample: the PARTIALLY_FILLED status of an exhausted IOC order
is not terminal.  After scenario 3 (`BUY LIMIT IOC 10000 qty 10` against a
resting sell of 3) the buy order is PARTIALLY_FILLED, yet a subsequent
`cancelOrder` of it returns SUCCESS and transitions it to CANCELLED. -/
theorem c6_partial_ioc_not_terminal :
    (lookupA c6fin.orders 2).map Order.status = some OrderStatus.PARTIALLY_FILLED ∧
    (engineCancelOrder c6fin 2).1 = ErrorCode.SUCCESS ∧
    (lookupA (engineCancelOrder c6fin 2).2.orders 2).map Order.status =
      some OrderStatus.CANCELLED := by
  refine ⟨by decide, by decide, by decide⟩

/-- C6 (amended: PARTIALLY_FILLED is reached but is not terminal): for every
LIMIT IOC order processed by the engine, the scenario-3 run produces exactly
one trade of quantity 3 with the buy ending PARTIALLY_FILLED, user 1's locked
balance released to 0 and an empty book; and in general the unfilled residual
of a LIMIT IOC order never rests in its book, the final registry entry is
CANCELLED when nothing filled and PARTIALLY_FILLED when partially filled, and
for a partially filled BUY the ledger state is exactly the post-match ledger
with `unlockFunds(price * unfilled)` applied. -/
theorem c6_limit_ioc_amended (fuel : Nat) (st : EngineState) (oid : OrderId) (o : Order)
    (hco : Coherent st) (hfl : FilledLE st) (ho : lookupA st.orders oid = some o)
    (htl : o.type = OrderType.LIMIT) (htif : o.timeInForce = TimeInForce.IOC)
    (hq : 0 < o.quantity) (hnb : ¬ bookHasId st o.symbol oid) :
    (c6fin.emittedTrades.map Trade.quantity = [3] ∧
     (lookupA c6fin.orders 2).map Order.status = some OrderStatus.PARTIALLY_FILLED ∧
     getOrCreateBalance c6fin.balances 1 =
       { userId := 1, availableBalance := 940000, lockedBalance := 0 } ∧
     bookIds (getBook c6fin "X") = []) ∧
    ¬ bookHasId (processOrder fuel st oid).1 o.symbol oid ∧
    (∀ o', lookupA (processOrder fuel st oid).1.orders oid = some o' →
      (o'.filledQuantity = 0 → o'.status = OrderStatus.CANCELLED) ∧
      (0 < o'.filledQuantity → o'.filledQuantity < o.quantity →
        o'.status = OrderStatus.PARTIALLY_FILLED) ∧
      (o.side = Side.BUY → o'.filledQuantity < o.quantity →
        (processOrder fuel st oid).1.balances =
          (unlockFunds (matchLimitOrder fuel (ensureBook st o.symbol) oid).1.balances
            o.userId (o.price * ((o.quantity - o'.filledQuantity : Nat) : Int))).2)) := by
  refine ⟨⟨by decide, by decide, by decide, by decide⟩, ?_⟩
  unfold processOrder
  rw [ho]
  dsimp only
  rw [if_pos htl]
  have hords0 : (ensureBook st o.symbol).orders = st.orders := orders_ensureBook _ _
  have hco0 : Coherent (ensureBook st o.symbol) := coherent_of_orders_eq hords0 hco
  have hfl0 : FilledLE (ensureBook st o.symbol) := filledLE_of_orders_eq hords0 hfl
  have ho0 : lookupA (ensureBook st o.symbol).orders oid = some o := by
    rw [hords0]
    exact ho
  have hsd0 : ∀ o1, lookupA (ensureBook st o.symbol).orders oid = some o1 →
      o1.side = o.side := by
    intro o1 h1
    rw [ho0] at h1
    injection h1 with he
    rw [← he]
  obtain ⟨m1, m2, m3, m4, m5⟩ := matchLimitOrder_spec fuel (ensureBook st o.symbol) oid
    o.side hco0 hfl0 hsd0
  clear m1 m2 m4
  revert m3 m5
  generalize hM : matchLimitOrder fuel (ensureBook st o.symbol) oid = M
  intro m3 m5
  obtain ⟨o1, ho1, hsc1⟩ := (m3 oid).1 o ho0
  obtain ⟨sc1, sc2, sc3, sc4, sc5, sc6, sc7, sc8⟩ := hsc1
  have hioc1 : o1.timeInForce = TimeInForce.IOC := sc6.trans htif
  unfold processPost
  rw [ho1]
  dsimp only
  rw [if_pos hioc1]
  dsimp only
  by_cases hfq1 : o1.filledQuantity < o1.quantity
  · by_cases hbs : o1.side = Side.BUY
    · by_cases h0 : o1.filledQuantity = 0
      · have hhio : handleIOC M.1 oid = setOrderIn { M.1 with balances := (unlockFunds M.1.balances o1.userId (o1.price * ((o1.quantity - o1.filledQuantity : Nat) : Int))).2 } oid { o1 with status := OrderStatus.CANCELLED } := by
          unfold handleIOC
          rw [ho1]
          dsimp only
          rw [if_pos hfq1, if_pos hbs, if_pos h0]
        have hlk : lookupA (handleIOC M.1 oid).orders oid = some { o1 with status := OrderStatus.CANCELLED } := by
          rw [hhio, orders_setOrderIn, lookupA_setA_self]
        have hioc2 : ({ o1 with status := OrderStatus.CANCELLED } : Order).timeInForce = TimeInForce.IOC := hioc1
        have hrg : restGFD (handleIOC M.1 oid) oid = handleIOC M.1 oid :=
          restGFD_of_ioc _ oid _ hlk hioc2
        rw [hrg, hhio]
        constructor
        · intro hcontra
          have hb1 : bookHasId { M.1 with balances := (unlockFunds M.1.balances o1.userId (o1.price * ((o1.quantity - o1.filledQuantity : Nat) : Int))).2 } o.symbol oid :=
            (bookHasId_setOrderIn _ _ _ _ _).mp hcontra
          have hb2 : bookHasId M.1 o.symbol oid :=
            (bookHasId_of_books_eq rfl o.symbol oid).mp hb1
          exact hnb ((bookHasId_ensureBook st o.symbol o.symbol oid).mp
            (m5 o.symbol oid hb2))
        · intro o' ho'
          rw [orders_setOrderIn, lookupA_setA_self] at ho'
          injection ho' with he
          subst he
          refine ⟨?_, ?_, ?_⟩
          · intro _
            rfl
          · intro hpos _
            exfalso
            have hpos' : 0 < o1.filledQuantity := hpos
            rw [h0] at hpos'
            exact Nat.lt_irrefl 0 hpos'
          · intro _ _
            have hfe : ({ o1 with status := OrderStatus.CANCELLED } : Order).filledQuantity = o1.filledQuantity := rfl
            rw [hfe, ← sc2, ← sc7, ← sc8]
            rfl
      · have hhio : handleIOC M.1 oid = setOrderIn { M.1 with balances := (unlockFunds M.1.balances o1.userId (o1.price * ((o1.quantity - o1.filledQuantity : Nat) : Int))).2 } oid { o1 with status := OrderStatus.PARTIALLY_FILLED } := by
          unfold handleIOC
          rw [ho1]
          dsimp only
          rw [if_pos hfq1, if_pos hbs, if_neg h0]
        have hlk : lookupA (handleIOC M.1 oid).orders oid = some { o1 with status := OrderStatus.PARTIALLY_FILLED } := by
          rw [hhio, orders_setOrderIn, lookupA_setA_self]
        have hioc2 : ({ o1 with status := OrderStatus.PARTIALLY_FILLED } : Order).timeInForce = TimeInForce.IOC := hioc1
        have hrg : restGFD (handleIOC M.1 oid) oid = handleIOC M.1 oid :=
          restGFD_of_ioc _ oid _ hlk hioc2
        rw [hrg, hhio]
        constructor
        · intro hcontra
          have hb1 : bookHasId { M.1 with balances := (unlockFunds M.1.balances o1.userId (o1.price * ((o1.quantity - o1.filledQuantity : Nat) : Int))).2 } o.symbol oid :=
            (bookHasId_setOrderIn _ _ _ _ _).mp hcontra
          have hb2 : bookHasId M.1 o.symbol oid :=
            (bookHasId_of_books_eq rfl o.symbol oid).mp hb1
          exact hnb ((bookHasId_ensureBook st o.symbol o.symbol oid).mp
            (m5 o.symbol oid hb2))
        · intro o' ho'
          rw [orders_setOrderIn, lookupA_setA_self] at ho'
          injection ho' with he
          subst he
          refine ⟨?_, ?_, ?_⟩
          · intro hz
            exact absurd hz h0
          · intro _ _
            rfl
          · intro _ _
            have hfe : ({ o1 with status := OrderStatus.PARTIALLY_FILLED } : Order).filledQuantity = o1.filledQuantity := rfl
            rw [hfe, ← sc2, ← sc7, ← sc8]
            rfl
    · by_cases h0 : o1.filledQuantity = 0
      · have hhio : handleIOC M.1 oid = setOrderIn M.1 oid { o1 with status := OrderStatus.CANCELLED } := by
          unfold handleIOC
          rw [ho1]
          dsimp only
          rw [if_pos hfq1, if_neg hbs, if_pos h0]
        have hlk : lookupA (handleIOC M.1 oid).orders oid = some { o1 with status := OrderStatus.CANCELLED } := by
          rw [hhio, orders_setOrderIn, lookupA_setA_self]
        have hioc2 : ({ o1 with status := OrderStatus.CANCELLED } : Order).timeInForce = TimeInForce.IOC := hioc1
        have hrg : restGFD (handleIOC M.1 oid) oid = handleIOC M.1 oid :=
          restGFD_of_ioc _ oid _ hlk hioc2
        rw [hrg, hhio]
        constructor
        · intro hcontra
          have hb1 : bookHasId M.1 o.symbol oid :=
            (bookHasId_setOrderIn _ _ _ _ _).mp hcontra
          exact hnb ((bookHasId_ensureBook st o.symbol o.symbol oid).mp
            (m5 o.symbol oid hb1))
        · intro o' ho'
          rw [orders_setOrderIn, lookupA_setA_self] at ho'
          injection ho' with he
          subst he
          refine ⟨?_, ?_, ?_⟩
          · intro _
            rfl
          · intro hpos _
            exfalso
            have hpos' : 0 < o1.filledQuantity := hpos
            rw [h0] at hpos'
            exact Nat.lt_irrefl 0 hpos'
          · intro hside _
            exact absurd (sc4.trans hside) hbs
      · have hhio : handleIOC M.1 oid = setOrderIn M.1 oid { o1 with status := OrderStatus.PARTIALLY_FILLED } := by
          unfold handleIOC
          rw [ho1]
          dsimp only
          rw [if_pos hfq1, if_neg hbs, if_neg h0]
        have hlk : lookupA (handleIOC M.1 oid).orders oid = some { o1 with status := OrderStatus.PARTIALLY_FILLED } := by
          rw [hhio, orders_setOrderIn, lookupA_setA_self]
        have hioc2 : ({ o1 with status := OrderStatus.PARTIALLY_FILLED } : Order).timeInForce = TimeInForce.IOC := hioc1
        have hrg : restGFD (handleIOC M.1 oid) oid = handleIOC M.1 oid :=
          restGFD_of_ioc _ oid _ hlk hioc2
        rw [hrg, hhio]
        constructor
        · intro hcontra
          have hb1 : bookHasId M.1 o.symbol oid :=
            (bookHasId_setOrderIn _ _ _ _ _).mp hcontra
          exact hnb ((bookHasId_ensureBook st o.symbol o.symbol oid).mp
            (m5 o.symbol oid hb1))
        · intro o' ho'
          rw [orders_setOrderIn, lookupA_setA_self] at ho'
          injection ho' with he
          subst he
          refine ⟨?_, ?_, ?_⟩
          · intro hz
            exact absurd hz h0
          · intro _ _
            rfl
          · intro hside _
            exact absurd (sc4.trans hside) hbs
  · have hhio : handleIOC M.1 oid = M.1 := by
      unfold handleIOC
      rw [ho1]
      dsimp only
      rw [if_neg hfq1]
    have hrg : restGFD (handleIOC M.1 oid) oid = handleIOC M.1 oid :=
      restGFD_of_ioc _ oid _ (by rw [hhio]; exact ho1) hioc1
    rw [hrg, hhio]
    have hle : o1.quantity ≤ o1.filledQuantity := Nat.le_of_not_lt hfq1
    constructor
    · intro hcontra
      exact hnb ((bookHasId_ensureBook st o.symbol o.symbol oid).mp
        (m5 o.symbol oid hcontra))
    · intro o' ho'
      rw [ho1] at ho'
      injection ho' with he
      subst he
      refine ⟨?_, ?_, ?_⟩
      · intro h0
        exfalso
        rw [h0, Nat.le_zero] at hle
        rw [← sc8] at hq
        rw [hle] at hq
        exact Nat.lt_irrefl 0 hq
      · intro _ hlt
        exfalso
        rw [← sc8] at hlt
        exact absurd hlt (Nat.not_lt.mpr hle)
      · intro _ hlt
        exfalso
        rw [← sc8] at hlt
        exact absurd hlt (Nat.not_lt.mpr hle)

/-- C6 witness: the scenario-3 incoming `BUY LIMIT IOC 10000 qty 10`,
processed from the concrete pre-state `c6pre`. -/
theorem c6_limit_ioc_amended_witness :
    (Coherent c6pre ∧ FilledLE c6pre ∧ lookupA c6pre.orders 2 = some c6buy ∧
     c6buy.type = OrderType.LIMIT ∧ c6buy.timeInForce = TimeInForce.IOC ∧
     0 < c6buy.quantity ∧ ¬ bookHasId c6pre c6buy.symbol 2) ∧
    ((c6fin.emittedTrades.map Trade.quantity = [3] ∧
      (lookupA c6fin.orders 2).map Order.status = some OrderStatus.PARTIALLY_FILLED ∧
      getOrCreateBalance c6fin.balances 1 =
        { userId := 1, availableBalance := 940000, lockedBalance := 0 } ∧
      bookIds (getBook c6fin "X") = []) ∧
     ¬ bookHasId (processOrder 10 c6pre 2).1 c6buy.symbol 2 ∧
     (∀ o', lookupA (processOrder 10 c6pre 2).1.orders 2 = some o' →
       (o'.filledQuantity = 0 → o'.status = OrderStatus.CANCELLED) ∧
       (0 < o'.filledQuantity → o'.filledQuantity < c6buy.quantity →
         o'.status = OrderStatus.PARTIALLY_FILLED) ∧
       (c6buy.side = Side.BUY → o'.filledQuantity < c6buy.quantity →
         (processOrder 10 c6pre 2).1.balances =
           (unlockFunds (matchLimitOrder 10 (ensureBook c6pre c6buy.symbol) 2).1.balances
             c6buy.userId
             (c6buy.price * ((c6buy.quantity - o'.filledQuantity : Nat) : Int))).2))) :=
  ⟨⟨by decide, by decide, by decide, by decide, by decide, by decide, by decide⟩,
   c6_limit_ioc_amended 10 c6pre 2 c6buy (by decide) (by decide) (by decide) (by decide)
     (by decide) (by decide) (by decide)⟩

/-! ## Claim theorems: registry cancel semantics -/

/-- C7: `OrderService::cancelOrder` returns ORDER_NOT_FOUND for an unknown id
and SYSTEM_ERROR for a terminal order, changing nothing in either case; for an
active (PENDING or PARTIALLY_FILLED) order it returns SUCCESS, sets the status
to CANCELLED (so a status query shows CANCELLED and a second cancel returns
SYSTEM_ERROR), and for a BUY unlocks limit price times unfilled quantity. -/
theorem c7_cancel_semantics (st : EngineState) (oid : OrderId) :
    (lookupA st.orders oid = none →
      osCancelOrder st oid = (ErrorCode.ORDER_NOT_FOUND, st)) ∧
    (∀ o, lookupA st.orders oid = some o →
      o.status ≠ OrderStatus.PENDING → o.status ≠ OrderStatus.PARTIALLY_FILLED →
      osCancelOrder st oid = (ErrorCode.SYSTEM_ERROR, st)) ∧
    (∀ o, lookupA st.orders oid = some o →
      (o.status = OrderStatus.PENDING ∨ o.status = OrderStatus.PARTIALLY_FILLED) →
      (osCancelOrder st oid).1 = ErrorCode.SUCCESS ∧
      lookupA (osCancelOrder st oid).2.orders oid =
        some { o with status := OrderStatus.CANCELLED } ∧
      (osCancelOrder (osCancelOrder st oid).2 oid).1 = ErrorCode.SYSTEM_ERROR ∧
      (osCancelOrder st oid).2.balances =
        (if o.side = Side.BUY then
          (unlockFunds st.balances o.userId
            (o.price * ((o.quantity - o.filledQuantity : Nat) : Int))).2
         else st.balances)) := by
  refine ⟨?_, ?_, ?_⟩
  · intro h
    simp [osCancelOrder, h]
  · intro o ho h1 h2
    simp [osCancelOrder, ho, h1, h2]
  · intro o ho hact
    have hterm : ¬ (o.status ≠ OrderStatus.PENDING ∧ o.status ≠ OrderStatus.PARTIALLY_FILLED) := by
      rcases hact with h | h <;> simp [h]
    have hres : osCancelOrder st oid =
        (ErrorCode.SUCCESS,
          setOrderIn
            (if o.side = Side.BUY then
              { st with balances := (unlockFunds st.balances o.userId
                  (o.price * ((o.quantity - o.filledQuantity : Nat) : Int))).2 }
             else st)
            oid { o with status := OrderStatus.CANCELLED }) := by
      unfold osCancelOrder
      rw [ho]
      simp only [if_neg hterm]
    have horders1 :
        (osCancelOrder st oid).2.orders =
          setA st.orders oid { o with status := OrderStatus.CANCELLED } := by
      rw [hres]
      by_cases hs : o.side = Side.BUY <;> simp [setOrderIn, hs]
    refine ⟨by rw [hres], ?_, ?_, ?_⟩
    · rw [horders1, lookupA_setA_self]
    · have hl : lookupA (osCancelOrder st oid).2.orders oid =
          some { o with status := OrderStatus.CANCELLED } := by
        rw [horders1, lookupA_setA_self]
      generalize hst2 : (osCancelOrder st oid).2 = st2 at hl ⊢
      unfold osCancelOrder
      rw [hl]
      simp
    · rw [hres]
      by_cases hs : o.side = Side.BUY <;> simp [setOrderIn, hs]

/-- C7 witness: a concrete registry with one active BUY order, exercised
through `c7_cancel_semantics`. -/
theorem c7_cancel_semantics_witness :
    (lookupA c7wSt.orders 1 = some c7wOrder ∧
      (c7wOrder.status = OrderStatus.PENDING ∨
       c7wOrder.status = OrderStatus.PARTIALLY_FILLED)) ∧
    ((osCancelOrder c7wSt 1).1 = ErrorCode.SUCCESS ∧
      lookupA (osCancelOrder c7wSt 1).2.orders 1 =
        some { c7wOrder with status := OrderStatus.CANCELLED } ∧
      (osCancelOrder (osCancelOrder c7wSt 1).2 1).1 = ErrorCode.SYSTEM_ERROR ∧
      (osCancelOrder c7wSt 1).2.balances =
        (if c7wOrder.side = Side.BUY then
          (unlockFunds c7wSt.balances c7wOrder.userId
            (c7wOrder.price * ((c7wOrder.quantity - c7wOrder.filledQuantity : Nat) : Int))).2
         else c7wSt.balances)) :=
  ⟨⟨by decide, by decide⟩,
   (c7_cancel_semantics c7wSt 1).2.2 c7wOrder (by decide) (by decide)⟩

/-! ## Claim theorems: balance ledger edge cases -/

/-- C9: `completeTrade` called with `actualAmount > lockedAmount` still
returns SUCCESS whenever the user's locked balance covers `lockedAmount`: it
deducts `lockedAmount` from locked, silently clamps the negative refund to
zero (available is unchanged), and starting from non-negative balances both
balances stay non-negative. -/
theorem c9_negative_refund_clamped (bs : List (UserId × UserBalance)) (u : UserId)
    (lockedAmount actualAmount : Int)
    (h1 : lockedAmount ≤ (getOrCreateBalance bs u).lockedBalance)
    (h2 : lockedAmount < actualAmount) :
    (completeTrade bs u lockedAmount actualAmount).1 = ErrorCode.SUCCESS ∧
    (getOrCreateBalance (completeTrade bs u lockedAmount actualAmount).2 u).lockedBalance =
      (getOrCreateBalance bs u).lockedBalance - lockedAmount ∧
    (getOrCreateBalance (completeTrade bs u lockedAmount actualAmount).2 u).availableBalance =
      (getOrCreateBalance bs u).availableBalance ∧
    (0 ≤ (getOrCreateBalance bs u).availableBalance →
      0 ≤ (getOrCreateBalance (completeTrade bs u lockedAmount actualAmount).2 u).availableBalance ∧
      0 ≤ (getOrCreateBalance (completeTrade bs u lockedAmount actualAmount).2 u).lockedBalance) := by
  have hnl : ¬ (getOrCreateBalance bs u).lockedBalance < lockedAmount := not_lt.mpr h1
  have hnr : ¬ lockedAmount - actualAmount > 0 := by omega
  have hres : completeTrade bs u lockedAmount actualAmount =
      (ErrorCode.SUCCESS, setA bs u
        { getOrCreateBalance bs u with
            lockedBalance := (getOrCreateBalance bs u).lockedBalance - lockedAmount,
            availableBalance := (getOrCreateBalance bs u).availableBalance }) := by
    unfold completeTrade
    simp only [if_neg hnl, if_neg hnr]
  rw [hres]
  refine ⟨rfl, ?_, ?_, ?_⟩
  · simp [getOrCreateBalance_setA_self]
  · simp [getOrCreateBalance_setA_self]
  · intro ha
    simp only [getOrCreateBalance_setA_self]
    exact ⟨ha, by omega⟩

/-- C9 witness: locked 10 covers lockedAmount 4 while actualAmount is 9. -/
theorem c9_negative_refund_clamped_witness :
    ((4 : Int) ≤ (getOrCreateBalance c9wBs 1).lockedBalance ∧ (4 : Int) < 9) ∧
    ((completeTrade c9wBs 1 4 9).1 = ErrorCode.SUCCESS ∧
      (getOrCreateBalance (completeTrade c9wBs 1 4 9).2 1).lockedBalance =
        (getOrCreateBalance c9wBs 1).lockedBalance - 4 ∧
      (getOrCreateBalance (completeTrade c9wBs 1 4 9).2 1).availableBalance =
        (getOrCreateBalance c9wBs 1).availableBalance ∧
      (0 ≤ (getOrCreateBalance c9wBs 1).availableBalance →
        0 ≤ (getOrCreateBalance (completeTrade c9wBs 1 4 9).2 1).availableBalance ∧
        0 ≤ (getOrCreateBalance (completeTrade c9wBs 1 4 9).2 1).lockedBalance)) :=
  ⟨⟨by decide, by decide⟩, c9_negative_refund_clamped c9wBs 1 4 9 (by decide) (by decide)⟩

/-- C10: ledger operations on never-initialized users behave as if a zero
account existed: `getBalance` returns zeros, `lockFunds` of a positive amount
fails with INSUFFICIENT_BALANCE, and a transfer to an unknown recipient
succeeds (sender funded) and credits the fresh account with the amount. -/
theorem c10_implicit_account_creation (bs : List (UserId × UserBalance))
    (u v w : UserId) (amt tamt : Int)
    (hu : lookupA bs u = none) (hamt : 0 < amt)
    (hw : lookupA bs w = none)
    (hv : tamt ≤ (getOrCreateBalance bs v).availableBalance) (htamt : 0 < tamt) :
    (getBalance bs u).availableBalance = 0 ∧
    (getBalance bs u).lockedBalance = 0 ∧
    (lockFunds bs u amt).1 = ErrorCode.INSUFFICIENT_BALANCE ∧
    (transferFunds bs v w tamt).1 = ErrorCode.SUCCESS ∧
    (getOrCreateBalance (transferFunds bs v w tamt).2 w).availableBalance = tamt ∧
    (getOrCreateBalance (transferFunds bs v w tamt).2 w).lockedBalance = 0 := by
  have hub : getOrCreateBalance bs u =
      { userId := u, availableBalance := 0, lockedBalance := 0 } := by
    simp [getOrCreateBalance, hu]
  have hwb : getOrCreateBalance bs w =
      { userId := w, availableBalance := 0, lockedBalance := 0 } := by
    simp [getOrCreateBalance, hw]
  have hvw : v ≠ w := by
    intro h
    rw [h, hwb] at hv
    simp at hv
    omega
  have hnv : ¬ (getOrCreateBalance bs v).availableBalance < tamt := not_lt.mpr hv
  have htr : transferFunds bs v w tamt =
      (ErrorCode.SUCCESS,
        setA
          (setA bs v { getOrCreateBalance bs v with
            availableBalance := (getOrCreateBalance bs v).availableBalance - tamt })
          w
          { getOrCreateBalance
              (setA bs v { getOrCreateBalance bs v with
                availableBalance := (getOrCreateBalance bs v).availableBalance - tamt }) w with
            availableBalance :=
              (getOrCreateBalance
                (setA bs v { getOrCreateBalance bs v with
                  availableBalance := (getOrCreateBalance bs v).availableBalance - tamt }) w).availableBalance + tamt }) := by
    unfold transferFunds
    simp only [if_neg hnv]
  have hwmid : getOrCreateBalance
      (setA bs v { getOrCreateBalance bs v with
        availableBalance := (getOrCreateBalance bs v).availableBalance - tamt }) w =
      { userId := w, availableBalance := 0, lockedBalance := 0 } := by
    rw [getOrCreateBalance_setA_ne _ _ _ _ (Ne.symm hvw), hwb]
  refine ⟨by rw [getBalance, hub], by rw [getBalance, hub], ?_, ?_, ?_, ?_⟩
  · have : (getOrCreateBalance bs u).availableBalance < amt := by rw [hub]; simpa using hamt
    simp [lockFunds, this]
  · rw [htr]
  · rw [htr]
    simp [getOrCreateBalance_setA_self, hwmid]
  · rw [htr]
    simp [getOrCreateBalance_setA_self, hwmid]

/-- C10 witness: user 2 holds 100 available; users 7 and 9 were never
initialized. -/
theorem c10_implicit_account_creation_witness :
    (lookupA c10wBs 7 = none ∧ (0 : Int) < 5 ∧ lookupA c10wBs 9 = none ∧
      (30 : Int) ≤ (getOrCreateBalance c10wBs 2).availableBalance ∧ (0 : Int) < 30) ∧
    ((getBalance c10wBs 7).availableBalance = 0 ∧
      (getBalance c10wBs 7).lockedBalance = 0 ∧
      (lockFunds c10wBs 7 5).1 = ErrorCode.INSUFFICIENT_BALANCE ∧
      (transferFunds c10wBs 2 9 30).1 = ErrorCode.SUCCESS ∧
      (getOrCreateBalance (transferFunds c10wBs 2 9 30).2 9).availableBalance = 30 ∧
      (getOrCreateBalance (transferFunds c10wBs 2 9 30).2 9).lockedBalance = 0) :=
  ⟨⟨by decide, by decide, by decide, by decide, by decide⟩,
   c10_implicit_account_creation c10wBs 7 2 9 5 30 (by decide) (by decide) (by decide)
     (by decide) (by decide)⟩

/-- C8: `executeTrade` unconditionally builds the trade record and stamps the
book (last trade price set, cumulative volume increased) without inspecting
the return codes of `completeTrade`/`transferFunds`; when the buyer's
post-`completeTrade` available balance cannot cover the trade value the
transfer fails silently and the seller's account is left exactly as before;
and every trade returned by either matching loop is appended to the emitted
trade log. -/
theorem c8_trade_recorded_despite_ledger_failure :
    (∀ (st : EngineState) (b s : Order) (p : Price) (q : Quantity),
      (executeTrade st b s p q).2 =
        { tradeId := st.nextTradeId, buyOrderId := b.orderId, sellOrderId := s.orderId,
          buyUserId := b.userId, sellUserId := s.userId, symbol := b.symbol,
          price := p, quantity := q } ∧
      (getBook (executeTrade st b s p q).1 b.symbol).lastTradePrice = p ∧
      (getBook (executeTrade st b s p q).1 b.symbol).totalVolume =
        (getBook st b.symbol).totalVolume + q ∧
      (executeTrade st b s p q).1.orders = st.orders) ∧
    (∀ (st : EngineState) (b s : Order) (p : Price) (q : Quantity),
      b.userId ≠ s.userId →
      (getOrCreateBalance (completeTrade st.balances b.userId (b.price * (q : Int))
          (p * (q : Int))).2 b.userId).availableBalance < p * (q : Int) →
      getOrCreateBalance (executeTrade st b s p q).1.balances s.userId =
        getOrCreateBalance st.balances s.userId) ∧
    (∀ (fuel : Nat) (st : EngineState) (oid : OrderId),
      (matchLimitOrder fuel st oid).1.emittedTrades =
        st.emittedTrades ++ (matchLimitOrder fuel st oid).2 ∧
      (matchMarketOrder fuel st oid).1.emittedTrades =
        st.emittedTrades ++ (matchMarketOrder fuel st oid).2) := by
  refine ⟨?_, ?_, ?_⟩
  · intro st b s p q
    refine ⟨trade_executeTrade st b s p q, ?_, ?_, orders_executeTrade st b s p q⟩
    · rw [getBook_executeTrade_self]
      rfl
    · rw [getBook_executeTrade_self]
      rfl
  · intro st b s p q hne hlt
    rw [balances_executeTrade]
    have hfail : transferFunds (completeTrade st.balances b.userId (b.price * (q : Int))
        (p * (q : Int))).2 b.userId s.userId (p * (q : Int)) =
        (ErrorCode.INSUFFICIENT_BALANCE,
          (completeTrade st.balances b.userId (b.price * (q : Int)) (p * (q : Int))).2) := by
      unfold transferFunds
      dsimp only
      rw [if_pos hlt]
    rw [hfail]
    exact getOrCreateBalance_completeTrade_ne _ _ _ _ _ (Ne.symm hne)
  · intro fuel st oid
    exact ⟨matchLimitOrder_emitted fuel st oid, matchMarketOrder_emitted fuel st oid⟩

/-- C8 witness: a fill of quantity 1 at price 10000 between the penniless
buyer `c8wB` (user 1) and seller `c8wS` (user 2), starting from the empty
engine: the transfer fails and user 2's account is unchanged. -/
theorem c8_trade_recorded_despite_ledger_failure_witness :
    (c8wB.userId ≠ c8wS.userId ∧
     (getOrCreateBalance (completeTrade st0.balances c8wB.userId
         (c8wB.price * ((1 : Quantity) : Int)) ((10000 : Price) * ((1 : Quantity) : Int))).2
       c8wB.userId).availableBalance < (10000 : Price) * ((1 : Quantity) : Int)) ∧
    getOrCreateBalance (executeTrade st0 c8wB c8wS 10000 1).1.balances c8wS.userId =
      getOrCreateBalance st0.balances c8wS.userId :=
  ⟨⟨by decide, by decide⟩,
   c8_trade_recorded_despite_ledger_failure.2.1 st0 c8wB c8wS 10000 1 (by decide)
     (by decide)⟩

end TE
